import Mathlib

/-!
Verification development for the medmanagement alert evaluation and
delivery-dedup engine.

The definitions below are a shallow embedding of the two batch-runner
implementations:

* `MedAlerts.Mjs`  embeds `scripts/send-alerts.mjs` (Node runner):
  sequential per-phone sends with a post-increment cap check, bare
  `"HH:MM"` schedule strings.
* `MedAlerts.Deno` embeds `supabase/functions/send-alerts/index.ts`
  (paged Deno runner): `normalizeScheduleTimes` accepting both bare
  strings and structured `{time, pills}` entries, all-phones batch
  sends, per-medication cap and time-budget checks.

JS numbers are modelled as `Int` (the arithmetic used is integer-valued:
minute arithmetic, stock subtraction, `Math.max(0, _)`), nullable string
fields as `Option String`, and the `Intl.DateTimeFormat` timezone
conversion as an oracle `zoned : String → String × Int` giving the local
calendar date string and the local minute-of-day for a timezone name.
Message sends are recorded as `Send` values; entering a notification
branch is recorded as an `Event` (its class and occurrence key), so that
"a notification was emitted" is observable in the model.
-/

namespace MedAlerts

/-- `ALERT_WINDOW_MINUTES` constant shared by both runners. -/
def ALERT_WINDOW_MINUTES : Int := 10

/-- The due test of both runners: the loop executes `continue` when
`diffMinutes < 0 || diffMinutes > ALERT_WINDOW_MINUTES`; an entry is due
exactly when the continue-condition is false. -/
def isDue (nowMinutes scheduledMinutes : Int) : Bool :=
  let diffMinutes := nowMinutes - scheduledMinutes
  if diffMinutes < 0 ∨ diffMinutes > ALERT_WINDOW_MINUTES then false else true

/-- Split a character list at every occurrence of the separator, keeping
empty segments, like `String.split` in JS (`"08:00".split(":")`). -/
def splitOnChar (c : Char) : List Char → List (List Char)
  | [] => [[]]
  | x :: xs =>
    match splitOnChar c xs with
    | [] => if x = c then [[], []] else [[x]]
    | y :: ys => if x = c then [] :: y :: ys else (x :: y) :: ys

/-- Decimal value of a digit character list, as JS `Number` yields on a
well-formed digit string (`"08"` parses to `8`). -/
def parseNat (l : List Char) : Nat :=
  l.foldl (fun n c => n * 10 + (c.toNat - 48)) 0

/-- `toMinutes`: parse `"HH:MM"` to minute-of-day (`hours * 60 + minutes`).
Models `Number` parsing for well-formed two-component time strings. -/
def toMinutes (time : String) : Int :=
  match splitOnChar ':' time.data with
  | [h, m] => (parseNat h : Int) * 60 + (parseNat m : Int)
  | _ => 0

/-- `buildAlertKey`: the occurrence key is the local date string joined to
the raw schedule time string. -/
def buildAlertKey (dateString time : String) : String :=
  dateString ++ "-" ++ time

/-- One attempted message send (`sendWhatsApp` call): destination phone
(the source's `to` argument) and body. -/
structure Send where
  dest : String
  message : String
deriving DecidableEq, Repr

/-- Classification of an emitted notification. -/
inductive EventKind where
  | doseReminder
  | lowStock
deriving DecidableEq, Repr

/-- An emitted notification: its class and the occurrence key (the
date+time key for dose reminders, the local date for low stock). -/
structure Event where
  kind : EventKind
  key : String
deriving DecidableEq, Repr

/-- User profile row as selected by both runners. `whatsapp_enabled` is a
nullable boolean: the skip test is `profile.whatsapp_enabled === false`,
so `null` counts as enabled. -/
structure Profile where
  phone_numbers : List String
  whatsapp_enabled : Option Bool
  timezone : Option String
deriving DecidableEq, Repr

/-- `profile.timezone || "UTC"`: empty or absent timezone falls back to UTC. -/
def effTimezone (p : Profile) : String :=
  match p.timezone with
  | some tz => if tz = "" then "UTC" else tz
  | none => "UTC"

/-- A phone entry is usable when `value?.trim()` is truthy, i.e. the
string contains a non-whitespace character. -/
def phoneUsable (v : String) : Bool :=
  v.data.any (fun c => !c.isWhitespace)

/-- `(profile.phone_numbers || []).filter((value) => value?.trim())`. -/
def filteredPhones (p : Profile) : List String :=
  p.phone_numbers.filter phoneUsable

/-- Evaluation context: the timezone oracle (modelling `getZonedParts` on
the fixed `now`, returning the local date string and minute-of-day) and
`now.toISOString()`. -/
structure Ctx where
  zoned : String → String × Int
  nowIso : String

/-- The partial-field PATCH payload built at the end of one medication's
evaluation. `none` in `last_taken`, `stock`,
`last_low_stock_whatsapp_date` means the field is absent from the
payload; the two key fields are always present (their values may be the
JS `null`, i.e. `none` inside). -/
structure UpdatePayload where
  last_whatsapp_alert_key : Option String
  last_auto_dose_key : Option String
  last_taken : Option String
  stock : Option Int
  last_low_stock_whatsapp_date : Option String
deriving DecidableEq, Repr

/-- In-progress state of one medication's evaluation pass (the local
variables of the per-medication block plus the send/event trace). -/
structure EvalAcc where
  newLastWhatsAppKey : Option String
  newLastAutoDoseKey : Option String
  newLastTaken : Option String
  newStock : Int
  shouldUpdate : Bool
  sentCount : Nat
  sends : List Send
  events : List Event
deriving DecidableEq, Repr

namespace Mjs

/-- Constants of `scripts/send-alerts.mjs`. -/
def MAX_SENDS_PER_RUN : Nat := 50

/-- Medication row as selected by the Node runner (`notes` is carried for
the frame statement; the runner never reads or writes it). -/
structure Med where
  id : Nat
  user_id : Nat
  name : String
  unit : String
  dose_amount : Int
  stock : Int
  low_threshold : Int
  schedule_times : List String
  alerts_enabled : Bool
  auto_deduct : Bool
  last_taken : Option String
  notes : String
  last_alert_key : Option String
  last_auto_dose_key : Option String
  last_whatsapp_alert_key : Option String
  last_low_stock_whatsapp_date : Option String
deriving DecidableEq, Repr

/-- Initial per-medication state (lines 182-186 of the runner). -/
def initAcc (med : Med) (sent0 : Nat) : EvalAcc :=
  { newLastWhatsAppKey := med.last_whatsapp_alert_key
    newLastAutoDoseKey := med.last_auto_dose_key
    newLastTaken := none
    newStock := med.stock
    shouldUpdate := false
    sentCount := sent0
    sends := []
    events := [] }

/-- Dose-reminder message body. -/
def reminderMsg (med : Med) (time : String) : String :=
  "Hora de tomar " ++ med.name ++ ". Dose: " ++ toString med.dose_amount ++
    " " ++ med.unit ++ " às " ++ time ++ "."

/-- Low-stock message body. -/
def lowMsg (med : Med) : String :=
  "Estoque baixo: " ++ med.name ++ ". Restam " ++ toString med.stock ++
    " unidades. Providencie reposição."

/-- The per-phone send loop: send, increment, `break` once the count has
reached `MAX_SENDS_PER_RUN` (checked after the increment, so the first
phone is attempted even when the count is already at the cap). -/
def sendLoop (message : String) : List String → Nat → List Send → Nat × List Send
  | [], sent, sends => (sent, sends)
  | phone :: rest, sent, sends =>
    let sent' := sent + 1
    let sends' := sends ++ [⟨phone, message⟩]
    if MAX_SENDS_PER_RUN ≤ sent' then (sent', sends')
    else sendLoop message rest sent' sends'

/-- One iteration of the `for (const time of med.schedule_times)` loop. -/
def stepTime (med : Med) (phones : List String) (dateString : String)
    (nowMinutes : Int) (nowIso : String) (time : String) (acc : EvalAcc) : EvalAcc :=
  if isDue nowMinutes (toMinutes time) then
    let alertKey := buildAlertKey dateString time
    let acc1 :=
      if med.last_whatsapp_alert_key ≠ some alertKey then
        let s := sendLoop (reminderMsg med time) phones acc.sentCount acc.sends
        { acc with
          sentCount := s.1
          sends := s.2
          events := acc.events ++ [⟨EventKind.doseReminder, alertKey⟩]
          newLastWhatsAppKey := some alertKey
          shouldUpdate := true }
      else acc
    if med.auto_deduct ∧ med.last_auto_dose_key ≠ some alertKey then
      { acc1 with
        newStock := max 0 (acc1.newStock - med.dose_amount)
        newLastTaken := some nowIso
        newLastAutoDoseKey := some alertKey
        shouldUpdate := true }
    else acc1
  else acc

/-- The schedule loop folded over the time strings. -/
def schedLoop (med : Med) (phones : List String) (dateString : String)
    (nowMinutes : Int) (nowIso : String) : List String → EvalAcc → EvalAcc
  | [], acc => acc
  | t :: ts, acc =>
    schedLoop med phones dateString nowMinutes nowIso ts
      (stepTime med phones dateString nowMinutes nowIso t acc)

/-- The low-stock firing condition (evaluated on the medication's stored
stock and stored low-stock date, not the in-progress values). -/
def lowCond (med : Med) (dateString : String) : Bool :=
  decide (med.stock ≤ med.low_threshold) &&
    decide (med.last_low_stock_whatsapp_date ≠ some dateString)

/-- The low-stock block: send to every phone (with the capped send loop)
and mark the row for update. -/
def lowStockStep (med : Med) (phones : List String) (dateString : String)
    (acc : EvalAcc) : EvalAcc :=
  let s := sendLoop (lowMsg med) phones acc.sentCount acc.sends
  { acc with
    sentCount := s.1
    sends := s.2
    events := acc.events ++ [⟨EventKind.lowStock, dateString⟩]
    shouldUpdate := true }

/-- Build the PATCH payload (lines 226-242): the two key fields always,
`last_taken` and `stock` only when `newLastTaken` was set, the low-stock
date only when the low-stock condition held. -/
def mkUpdate (acc : EvalAcc) (low : Bool) (dateString : String) : UpdatePayload :=
  { last_whatsapp_alert_key := acc.newLastWhatsAppKey
    last_auto_dose_key := acc.newLastAutoDoseKey
    last_taken := acc.newLastTaken
    stock := if acc.newLastTaken.isSome then some acc.newStock else none
    last_low_stock_whatsapp_date := if low then some dateString else none }

/-- Apply a PATCH payload to a row: absent fields are untouched. -/
def applyUpdate (m : Med) (u : UpdatePayload) : Med :=
  { m with
    last_whatsapp_alert_key := u.last_whatsapp_alert_key
    last_auto_dose_key := u.last_auto_dose_key
    last_taken := match u.last_taken with | some v => some v | none => m.last_taken
    stock := match u.stock with | some v => v | none => m.stock
    last_low_stock_whatsapp_date :=
      match u.last_low_stock_whatsapp_date with
      | some v => some v
      | none => m.last_low_stock_whatsapp_date }

/-- Result of one medication's iteration: the (possibly) persisted row,
the payload (if an update was issued), and the send/event trace. -/
structure MedResult where
  med : Med
  update : Option UpdatePayload
  sentCount : Nat
  sends : List Send
  events : List Event
deriving DecidableEq, Repr

/-- The `continue` conditions of the medication loop: missing profile,
channel disabled, no usable phone, empty schedule. -/
def medSkipped (med : Med) (prof : Option Profile) : Bool :=
  match prof with
  | none => true
  | some profile =>
    decide (profile.whatsapp_enabled = some false) ||
      (filteredPhones profile).isEmpty || med.schedule_times.isEmpty

/-- Local date string computed for this profile's timezone. -/
def dateOf (ctx : Ctx) (profile : Profile) : String :=
  (ctx.zoned (effTimezone profile)).1

/-- Local minute-of-day (`hour * 60 + minute`) for this profile's timezone. -/
def minutesOf (ctx : Ctx) (profile : Profile) : Int :=
  (ctx.zoned (effTimezone profile)).2

/-- The per-medication accumulator after the schedule loop and the
low-stock block. -/
def evalAcc2 (ctx : Ctx) (med : Med) (profile : Profile) (sent0 : Nat) : EvalAcc :=
  let acc1 := schedLoop med (filteredPhones profile) (dateOf ctx profile)
    (minutesOf ctx profile) ctx.nowIso med.schedule_times (initAcc med sent0)
  if lowCond med (dateOf ctx profile) then
    lowStockStep med (filteredPhones profile) (dateOf ctx profile) acc1
  else acc1

/-- One medication's evaluation on the non-skipped path: schedule loop,
low-stock block, immediate persist of the payload when any dedup field
changed. -/
def evalMed (ctx : Ctx) (med : Med) (profile : Profile) (sent0 : Nat) : MedResult :=
  let acc2 := evalAcc2 ctx med profile sent0
  if acc2.shouldUpdate then
    let u := mkUpdate acc2 (lowCond med (dateOf ctx profile)) (dateOf ctx profile)
    ⟨applyUpdate med u, some u, acc2.sentCount, acc2.sends, acc2.events⟩
  else ⟨med, none, acc2.sentCount, acc2.sends, acc2.events⟩

/-- One medication's full iteration of the Node runner body
(lines 171-242): skip checks, then the evaluation path. -/
def processMed (ctx : Ctx) (med : Med) (prof : Option Profile) (sent0 : Nat) : MedResult :=
  match prof with
  | none => ⟨med, none, sent0, [], []⟩
  | some profile =>
    if profile.whatsapp_enabled = some false then ⟨med, none, sent0, [], []⟩
    else if (filteredPhones profile).isEmpty then ⟨med, none, sent0, [], []⟩
    else if med.schedule_times.isEmpty then ⟨med, none, sent0, [], []⟩
    else evalMed ctx med profile sent0

/-- Result of a whole run: persisted rows of the processed medications,
the verbatim unprocessed tail (cap reached), final send count, trace. -/
structure RunResult where
  meds : List Med
  remaining : List (Med × Option Profile)
  sentCount : Nat
  sends : List Send
  events : List Event
deriving DecidableEq, Repr

/-- The medication loop over a page list: a skipped medication
`continue`s (no cap check on that path), a processed one is followed by
the `if (sentCount >= MAX_SENDS_PER_RUN) break` check. -/
def runMeds (ctx : Ctx) : List (Med × Option Profile) → Nat → RunResult
  | [], sent => ⟨[], [], sent, [], []⟩
  | (m, p) :: rest, sent =>
    if medSkipped m p then
      let r := runMeds ctx rest sent
      ⟨m :: r.meds, r.remaining, r.sentCount, r.sends, r.events⟩
    else
      let pr := processMed ctx m p sent
      if MAX_SENDS_PER_RUN ≤ pr.sentCount then
        ⟨[pr.med], rest, pr.sentCount, pr.sends, pr.events⟩
      else
        let r := runMeds ctx rest pr.sentCount
        ⟨pr.med :: r.meds, r.remaining, r.sentCount, pr.sends ++ r.sends,
          pr.events ++ r.events⟩

/-- A sequence of invocations on one medication: each invocation starts
with a fresh send count and works from the state persisted by the
previous one. Returns the final row and the concatenated event trace. -/
def runSeq (prof : Option Profile) : List Ctx → Med → Med × List Event
  | [], med => (med, [])
  | c :: cs, med =>
    let r := processMed c med prof 0
    let rest := runSeq prof cs r.med
    (rest.1, r.events ++ rest.2)

/-- The condition under which the dose-reminder branch of one schedule
entry executes: the entry is due and its occurrence key differs from the
medication's stored last-reminder key. -/
def fireW (med : Med) (dateString : String) (nowMinutes : Int) (t : String) : Bool :=
  isDue nowMinutes (toMinutes t) &&
    decide (med.last_whatsapp_alert_key ≠ some (buildAlertKey dateString t))

/-- The condition under which the auto-deduction branch of one schedule
entry executes. -/
def fireA (med : Med) (dateString : String) (nowMinutes : Int) (t : String) : Bool :=
  isDue nowMinutes (toMinutes t) &&
    (med.auto_deduct &&
      decide (med.last_auto_dose_key ≠ some (buildAlertKey dateString t)))

end Mjs

/-- Number of low-stock notifications in an event trace. -/
def countLow (evs : List Event) : Nat :=
  (evs.filter (fun e => decide (e.kind = EventKind.lowStock))).length

/-- The occurrence keys of the dose-reminder notifications in an event
trace, in emission order. -/
def reminderKeys (evs : List Event) : List String :=
  (evs.filter (fun e => decide (e.kind = EventKind.doseReminder))).map (fun e => e.key)

namespace Deno

/-- Constant of `supabase/functions/send-alerts/index.ts`. -/
def MAX_SENDS_PER_RUN : Nat := 10

/-- A normalized schedule entry: time string plus per-time dose. -/
structure SchedEntry where
  time : String
  pills : Int
deriving DecidableEq, Repr

/-- A raw `schedule_times` array element as stored: a bare string, an
object with optional `time` and `pills` fields, or some other JSON value
(number, boolean, null, nested array). The non-array case of the source
(`if (!Array.isArray(value)) return []`) corresponds to the empty list. -/
inductive RawEntry where
  | str (time : String)
  | obj (time : Option String) (pills : Option Int)
  | other
deriving DecidableEq, Repr

/-- `normalizeScheduleTimes`: bare strings take the fallback dose; objects
need a truthy `time` (absent or empty string is malformed and dropped)
and default `pills` to the fallback; anything else is dropped. -/
def normalizeScheduleTimes (value : List RawEntry) (fallbackDose : Int) : List SchedEntry :=
  value.filterMap fun entry =>
    match entry with
    | .str t => some ⟨t, fallbackDose⟩
    | .obj t p =>
      match t with
      | none => none
      | some time => if time = "" then none else some ⟨time, p.getD fallbackDose⟩
    | .other => none

/-- Medication row of the Deno runner: `schedule_times` is raw JSON. -/
structure Med where
  id : Nat
  user_id : Nat
  name : String
  unit : String
  dose_amount : Int
  stock : Int
  low_threshold : Int
  schedule_times : List RawEntry
  alerts_enabled : Bool
  auto_deduct : Bool
  last_taken : Option String
  notes : String
  last_alert_key : Option String
  last_auto_dose_key : Option String
  last_whatsapp_alert_key : Option String
  last_low_stock_whatsapp_date : Option String
deriving DecidableEq, Repr

/-- `med.dose_amount || 1`: a zero (falsy) default dose falls back to 1. -/
def fallbackDose (med : Med) : Int :=
  if med.dose_amount = 0 then 1 else med.dose_amount

/-- Initial per-medication state. -/
def initAcc (med : Med) (sent0 : Nat) : EvalAcc :=
  { newLastWhatsAppKey := med.last_whatsapp_alert_key
    newLastAutoDoseKey := med.last_auto_dose_key
    newLastTaken := none
    newStock := med.stock
    shouldUpdate := false
    sentCount := sent0
    sends := []
    events := [] }

/-- Dose-reminder message body (uses the per-entry dose). -/
def reminderMsg (med : Med) (doseAmount : Int) (time : String) : String :=
  "Hora de tomar " ++ med.name ++ ". Dose: " ++ toString doseAmount ++
    " " ++ med.unit ++ " às " ++ time ++ "."

/-- Low-stock message body. -/
def lowMsg (med : Med) : String :=
  "Estoque baixo: " ++ med.name ++ ". Restam " ++ toString med.stock ++
    " unidades. Providencie reposição."

/-- `sendWhatsAppBatch`: fire to every phone, count the fulfilled sends
(in the model every send settles fulfilled). -/
def sendBatch (message : String) (phones : List String) (sent : Nat)
    (sends : List Send) : Nat × List Send :=
  (sent + phones.length, sends ++ phones.map (fun p => ⟨p, message⟩))

/-- One iteration of the `for (const entry of scheduleTimes)` loop. -/
def stepEntry (med : Med) (phones : List String) (dateString : String)
    (nowMinutes : Int) (nowIso : String) (entry : SchedEntry) (acc : EvalAcc) : EvalAcc :=
  if isDue nowMinutes (toMinutes entry.time) then
    let alertKey := buildAlertKey dateString entry.time
    let doseAmount := entry.pills
    let acc1 :=
      if med.last_whatsapp_alert_key ≠ some alertKey then
        let s := sendBatch (reminderMsg med doseAmount entry.time) phones
          acc.sentCount acc.sends
        { acc with
          sentCount := s.1
          sends := s.2
          events := acc.events ++ [⟨EventKind.doseReminder, alertKey⟩]
          newLastWhatsAppKey := some alertKey
          shouldUpdate := true }
      else acc
    if med.auto_deduct ∧ med.last_auto_dose_key ≠ some alertKey then
      { acc1 with
        newStock := max 0 (acc1.newStock - doseAmount)
        newLastTaken := some nowIso
        newLastAutoDoseKey := some alertKey
        shouldUpdate := true }
    else acc1
  else acc

/-- The normalized-schedule loop. -/
def schedLoop (med : Med) (phones : List String) (dateString : String)
    (nowMinutes : Int) (nowIso : String) : List SchedEntry → EvalAcc → EvalAcc
  | [], acc => acc
  | e :: es, acc =>
    schedLoop med phones dateString nowMinutes nowIso es
      (stepEntry med phones dateString nowMinutes nowIso e acc)

/-- The low-stock firing condition. -/
def lowCond (med : Med) (dateString : String) : Bool :=
  decide (med.stock ≤ med.low_threshold) &&
    decide (med.last_low_stock_whatsapp_date ≠ some dateString)

/-- The low-stock block with the batch send. -/
def lowStockStep (med : Med) (phones : List String) (dateString : String)
    (acc : EvalAcc) : EvalAcc :=
  let s := sendBatch (lowMsg med) phones acc.sentCount acc.sends
  { acc with
    sentCount := s.1
    sends := s.2
    events := acc.events ++ [⟨EventKind.lowStock, dateString⟩]
    shouldUpdate := true }

/-- Build the PATCH payload (lines 286-300). -/
def mkUpdate (acc : EvalAcc) (low : Bool) (dateString : String) : UpdatePayload :=
  { last_whatsapp_alert_key := acc.newLastWhatsAppKey
    last_auto_dose_key := acc.newLastAutoDoseKey
    last_taken := acc.newLastTaken
    stock := if acc.newLastTaken.isSome then some acc.newStock else none
    last_low_stock_whatsapp_date := if low then some dateString else none }

/-- Apply a PATCH payload to a row. -/
def applyUpdate (m : Med) (u : UpdatePayload) : Med :=
  { m with
    last_whatsapp_alert_key := u.last_whatsapp_alert_key
    last_auto_dose_key := u.last_auto_dose_key
    last_taken := match u.last_taken with | some v => some v | none => m.last_taken
    stock := match u.stock with | some v => v | none => m.stock
    last_low_stock_whatsapp_date :=
      match u.last_low_stock_whatsapp_date with
      | some v => some v
      | none => m.last_low_stock_whatsapp_date }

/-- Result of one medication's iteration. -/
structure MedResult where
  med : Med
  update : Option UpdatePayload
  sentCount : Nat
  sends : List Send
  events : List Event
deriving DecidableEq, Repr

/-- Local date string for this profile's timezone. -/
def dateOf (ctx : Ctx) (profile : Profile) : String :=
  (ctx.zoned (effTimezone profile)).1

/-- Local minute-of-day for this profile's timezone. -/
def minutesOf (ctx : Ctx) (profile : Profile) : Int :=
  (ctx.zoned (effTimezone profile)).2

/-- Accumulator after the normalized-schedule loop and low-stock block. -/
def evalAcc2 (ctx : Ctx) (med : Med) (profile : Profile) (sent0 : Nat) : EvalAcc :=
  let acc1 := schedLoop med (filteredPhones profile) (dateOf ctx profile)
    (minutesOf ctx profile) ctx.nowIso
    (normalizeScheduleTimes med.schedule_times (fallbackDose med))
    (initAcc med sent0)
  if lowCond med (dateOf ctx profile) then
    lowStockStep med (filteredPhones profile) (dateOf ctx profile) acc1
  else acc1

/-- One medication's evaluation on the non-skipped path. -/
def evalMed (ctx : Ctx) (med : Med) (profile : Profile) (sent0 : Nat) : MedResult :=
  let acc2 := evalAcc2 ctx med profile sent0
  if acc2.shouldUpdate then
    let u := mkUpdate acc2 (lowCond med (dateOf ctx profile)) (dateOf ctx profile)
    ⟨applyUpdate med u, some u, acc2.sentCount, acc2.sends, acc2.events⟩
  else ⟨med, none, acc2.sentCount, acc2.sends, acc2.events⟩

/-- One medication's full iteration (lines 213-309): skip checks (the
schedule check is on the normalized list), then the evaluation path. -/
def processMed (ctx : Ctx) (med : Med) (prof : Option Profile) (sent0 : Nat) : MedResult :=
  match prof with
  | none => ⟨med, none, sent0, [], []⟩
  | some profile =>
    if profile.whatsapp_enabled = some false then ⟨med, none, sent0, [], []⟩
    else if (filteredPhones profile).isEmpty then ⟨med, none, sent0, [], []⟩
    else if (normalizeScheduleTimes med.schedule_times (fallbackDose med)).isEmpty then
      ⟨med, none, sent0, [], []⟩
    else evalMed ctx med profile sent0

/-- Result of a whole Deno run. -/
structure RunResult where
  meds : List Med
  remaining : List (Med × Option Profile)
  sentCount : Nat
  sends : List Send
  events : List Event
deriving DecidableEq, Repr

/-- The medication loop (lines 213-310): the wall-clock budget (modelled
by the `timeUp` oracle on the iteration index) and the send cap are
checked before each medication; a skipped medication `continue`s. -/
def runMeds (ctx : Ctx) (timeUp : Nat → Bool) :
    List (Med × Option Profile) → Nat → Nat → RunResult
  | [], _, sent => ⟨[], [], sent, [], []⟩
  | (m, p) :: rest, i, sent =>
    if timeUp i then ⟨[], (m, p) :: rest, sent, [], []⟩
    else if MAX_SENDS_PER_RUN ≤ sent then ⟨[], (m, p) :: rest, sent, [], []⟩
    else
      let pr := processMed ctx m p sent
      let r := runMeds ctx timeUp rest (i + 1) pr.sentCount
      ⟨pr.med :: r.meds, r.remaining, r.sentCount, pr.sends ++ r.sends,
        pr.events ++ r.events⟩

end Deno

end MedAlerts

namespace MedAlerts

/-- Sample context: every timezone maps to local date 2024-03-01, local
time 08:03 (minute-of-day 483). -/
def sCtx483 : Ctx :=
  { zoned := fun _ => ("2024-03-01", 483), nowIso := "2024-03-01T08:03:00.000Z" }

/-- Sample context: local date 2024-03-01, local time 08:07 (487). -/
def sCtx487 : Ctx :=
  { zoned := fun _ => ("2024-03-01", 487), nowIso := "2024-03-01T08:07:00.000Z" }

/-- Sample profile with a single phone number. -/
def sProf1 : Profile :=
  { phone_numbers := ["111"], whatsapp_enabled := some true, timezone := some "UTC" }

/-- Sample profile with fifty phone numbers. -/
def sProf50 : Profile :=
  { phone_numbers := (List.range 50).map (fun i => "p" ++ toString i)
    whatsapp_enabled := some true
    timezone := some "UTC" }

/-- Base sample medication row for the Node runner. -/
def sMedBase : Mjs.Med :=
  { id := 1, user_id := 1, name := "MedA", unit := "mg", dose_amount := 1
    stock := 100, low_threshold := 1, schedule_times := ["08:00"]
    alerts_enabled := true, auto_deduct := false, last_taken := none, notes := ""
    last_alert_key := none, last_auto_dose_key := none
    last_whatsapp_alert_key := none, last_low_stock_whatsapp_date := none }

/-- Sample profile with two phone numbers. -/
def sProf2 : Profile :=
  { phone_numbers := ["111", "222"], whatsapp_enabled := some true
    timezone := some "UTC" }

/-- Sample medication at or below its low-stock threshold. -/
def sMedLow : Mjs.Med := { sMedBase with stock := 1, low_threshold := 5 }

/-- Sample medication whose schedule repeats the same time string. -/
def sMedDup : Mjs.Med := { sMedBase with schedule_times := ["08:00", "08:00"] }

/-- Sample medication with two distinct schedule times five minutes apart. -/
def sMedTwo : Mjs.Med := { sMedBase with schedule_times := ["08:00", "08:05"] }

/-- Base sample medication row for the Deno runner. -/
def sDenoMed : Deno.Med :=
  { id := 1, user_id := 1, name := "MedA", unit := "mg", dose_amount := 1
    stock := 100, low_threshold := 1
    schedule_times := [Deno.RawEntry.str "08:00"]
    alerts_enabled := true, auto_deduct := false, last_taken := none, notes := ""
    last_alert_key := none, last_auto_dose_key := none
    last_whatsapp_alert_key := none, last_low_stock_whatsapp_date := none }

end MedAlerts

namespace MedAlerts.Mjs

theorem stepTime_not_due (med : Med) (phones : List String) (d : String) (nm : Int)
    (iso t : String) (acc : EvalAcc) (h : isDue nm (toMinutes t) = false) :
    stepTime med phones d nm iso t acc = acc := by
  unfold stepTime
  simp [h]

theorem stepTime_events (med : Med) (phones : List String) (d : String) (nm : Int)
    (iso t : String) (acc : EvalAcc) :
    (stepTime med phones d nm iso t acc).events =
      acc.events ++
        (if fireW med d nm t then [⟨EventKind.doseReminder, buildAlertKey d t⟩] else []) := by
  unfold stepTime fireW
  by_cases hdue : isDue nm (toMinutes t)
  · by_cases hw : med.last_whatsapp_alert_key ≠ some (buildAlertKey d t) <;>
      by_cases ha : med.auto_deduct ∧ med.last_auto_dose_key ≠ some (buildAlertKey d t) <;>
        simp [hdue, hw, ha]
  · simp at hdue
    simp [hdue]

end MedAlerts.Mjs

namespace MedAlerts.Mjs

theorem stepTime_key (med : Med) (phones : List String) (d : String) (nm : Int)
    (iso t : String) (acc : EvalAcc) :
    (stepTime med phones d nm iso t acc).newLastWhatsAppKey =
      (if fireW med d nm t then some (buildAlertKey d t) else acc.newLastWhatsAppKey) := by
  unfold stepTime fireW
  by_cases hdue : isDue nm (toMinutes t)
  · by_cases hw : med.last_whatsapp_alert_key ≠ some (buildAlertKey d t) <;>
      by_cases ha : med.auto_deduct ∧ med.last_auto_dose_key ≠ some (buildAlertKey d t) <;>
        simp [hdue, hw, ha]
  · simp at hdue
    simp [hdue]

theorem stepTime_autoKey (med : Med) (phones : List String) (d : String) (nm : Int)
    (iso t : String) (acc : EvalAcc) :
    (stepTime med phones d nm iso t acc).newLastAutoDoseKey =
      (if fireA med d nm t then some (buildAlertKey d t) else acc.newLastAutoDoseKey) := by
  unfold stepTime fireA
  by_cases hdue : isDue nm (toMinutes t)
  · by_cases hw : med.last_whatsapp_alert_key ≠ some (buildAlertKey d t) <;>
      by_cases ha : med.auto_deduct ∧ med.last_auto_dose_key ≠ some (buildAlertKey d t) <;>
        simp [hdue, hw, ha]
  · simp at hdue
    simp [hdue]

theorem stepTime_lastTaken (med : Med) (phones : List String) (d : String) (nm : Int)
    (iso t : String) (acc : EvalAcc) :
    (stepTime med phones d nm iso t acc).newLastTaken =
      (if fireA med d nm t then some iso else acc.newLastTaken) := by
  unfold stepTime fireA
  by_cases hdue : isDue nm (toMinutes t)
  · by_cases hw : med.last_whatsapp_alert_key ≠ some (buildAlertKey d t) <;>
      by_cases ha : med.auto_deduct ∧ med.last_auto_dose_key ≠ some (buildAlertKey d t) <;>
        simp [hdue, hw, ha]
  · simp at hdue
    simp [hdue]

theorem stepTime_stock (med : Med) (phones : List String) (d : String) (nm : Int)
    (iso t : String) (acc : EvalAcc) :
    (stepTime med phones d nm iso t acc).newStock =
      (if fireA med d nm t then max 0 (acc.newStock - med.dose_amount)
       else acc.newStock) := by
  unfold stepTime fireA
  by_cases hdue : isDue nm (toMinutes t)
  · by_cases hw : med.last_whatsapp_alert_key ≠ some (buildAlertKey d t) <;>
      by_cases ha : med.auto_deduct ∧ med.last_auto_dose_key ≠ some (buildAlertKey d t) <;>
        simp [hdue, hw, ha]
  · simp at hdue
    simp [hdue]

theorem stepTime_shouldUpdate (med : Med) (phones : List String) (d : String) (nm : Int)
    (iso t : String) (acc : EvalAcc) :
    (stepTime med phones d nm iso t acc).shouldUpdate =
      (acc.shouldUpdate || (fireW med d nm t || fireA med d nm t)) := by
  unfold stepTime fireW fireA
  by_cases hdue : isDue nm (toMinutes t)
  · by_cases hw : med.last_whatsapp_alert_key ≠ some (buildAlertKey d t) <;>
      by_cases ha : med.auto_deduct ∧ med.last_auto_dose_key ≠ some (buildAlertKey d t) <;>
        simp [hdue, hw, ha]
  · simp at hdue
    simp [hdue]

theorem stepTime_no_fire (med : Med) (phones : List String) (d : String) (nm : Int)
    (iso t : String) (acc : EvalAcc)
    (hw : fireW med d nm t = false) (ha : fireA med d nm t = false) :
    stepTime med phones d nm iso t acc = acc := by
  unfold fireW at hw
  unfold fireA at ha
  by_cases hdue : isDue nm (toMinutes t)
  · rw [hdue] at hw ha
    simp only [Bool.true_and] at hw ha
    have hw' : ¬ med.last_whatsapp_alert_key ≠ some (buildAlertKey d t) :=
      of_decide_eq_false hw
    have ha' : ¬ (med.auto_deduct ∧ med.last_auto_dose_key ≠ some (buildAlertKey d t)) := by
      rintro ⟨h1, h2⟩
      rw [h1] at ha
      simp only [Bool.true_and] at ha
      exact of_decide_eq_false ha h2
    simp [stepTime, hdue, hw', ha']
  · simp at hdue
    simp [stepTime, hdue]

end MedAlerts.Mjs

namespace MedAlerts.Mjs

theorem schedLoop_events (med : Med) (phones : List String) (d : String) (nm : Int)
    (iso : String) : ∀ (ts : List String) (acc : EvalAcc),
    (schedLoop med phones d nm iso ts acc).events =
      acc.events ++ (ts.filter (fun t => fireW med d nm t)).map
        (fun t => ⟨EventKind.doseReminder, buildAlertKey d t⟩)
  | [], acc => by simp [schedLoop]
  | t :: ts, acc => by
    rw [schedLoop, schedLoop_events med phones d nm iso ts _, stepTime_events]
    by_cases h : fireW med d nm t <;> simp [h, List.filter_cons]

theorem schedLoop_key (med : Med) (phones : List String) (d : String) (nm : Int)
    (iso : String) : ∀ (ts : List String) (acc : EvalAcc),
    (schedLoop med phones d nm iso ts acc).newLastWhatsAppKey =
      ts.foldl (fun k t => if fireW med d nm t then some (buildAlertKey d t) else k)
        acc.newLastWhatsAppKey
  | [], acc => by simp [schedLoop]
  | t :: ts, acc => by
    rw [schedLoop, schedLoop_key med phones d nm iso ts _, stepTime_key]
    simp

theorem schedLoop_autoKey (med : Med) (phones : List String) (d : String) (nm : Int)
    (iso : String) : ∀ (ts : List String) (acc : EvalAcc),
    (schedLoop med phones d nm iso ts acc).newLastAutoDoseKey =
      ts.foldl (fun k t => if fireA med d nm t then some (buildAlertKey d t) else k)
        acc.newLastAutoDoseKey
  | [], acc => by simp [schedLoop]
  | t :: ts, acc => by
    rw [schedLoop, schedLoop_autoKey med phones d nm iso ts _, stepTime_autoKey]
    simp

theorem schedLoop_lastTaken (med : Med) (phones : List String) (d : String) (nm : Int)
    (iso : String) : ∀ (ts : List String) (acc : EvalAcc),
    (schedLoop med phones d nm iso ts acc).newLastTaken =
      (if ts.any (fun t => fireA med d nm t) then some iso else acc.newLastTaken)
  | [], acc => by simp [schedLoop]
  | t :: ts, acc => by
    rw [schedLoop, schedLoop_lastTaken med phones d nm iso ts _, stepTime_lastTaken]
    by_cases h : fireA med d nm t <;> simp [h]

theorem schedLoop_shouldUpdate (med : Med) (phones : List String) (d : String) (nm : Int)
    (iso : String) : ∀ (ts : List String) (acc : EvalAcc),
    (schedLoop med phones d nm iso ts acc).shouldUpdate =
      (acc.shouldUpdate || ts.any (fun t => fireW med d nm t || fireA med d nm t))
  | [], acc => by simp [schedLoop]
  | t :: ts, acc => by
    rw [schedLoop, schedLoop_shouldUpdate med phones d nm iso ts _, stepTime_shouldUpdate]
    by_cases hw : fireW med d nm t <;> by_cases ha : fireA med d nm t <;>
      simp [hw, ha, Bool.or_assoc]

theorem schedLoop_no_fire (med : Med) (phones : List String) (d : String) (nm : Int)
    (iso : String) : ∀ (ts : List String) (acc : EvalAcc),
    (∀ t ∈ ts, fireW med d nm t = false ∧ fireA med d nm t = false) →
    schedLoop med phones d nm iso ts acc = acc
  | [], _, _ => rfl
  | t :: ts, acc, h => by
    rw [schedLoop,
      stepTime_no_fire med phones d nm iso t acc (h t (by simp)).1 (h t (by simp)).2]
    exact schedLoop_no_fire med phones d nm iso ts acc (fun t' ht' => h t' (by simp [ht']))

theorem schedLoop_stock_nonneg (med : Med) (phones : List String) (d : String) (nm : Int)
    (iso : String) : ∀ (ts : List String) (acc : EvalAcc), 0 ≤ acc.newStock →
    0 ≤ (schedLoop med phones d nm iso ts acc).newStock
  | [], _, h => h
  | t :: ts, acc, h => by
    rw [schedLoop]
    apply schedLoop_stock_nonneg med phones d nm iso ts
    rw [stepTime_stock]
    by_cases hf : fireA med d nm t
    · simp only [hf, if_true]
      exact le_max_left 0 _
    · simpa [hf] using h

end MedAlerts.Mjs

namespace MedAlerts

theorem string_data_inj {s1 s2 : String} (h : s1.data = s2.data) : s1 = s2 := by
  cases s1
  cases s2
  exact congrArg String.mk h

theorem buildAlertKey_inj (d : String) {t1 t2 : String}
    (h : buildAlertKey d t1 = buildAlertKey d t2) : t1 = t2 := by
  unfold buildAlertKey at h
  have h2 := congrArg String.data h
  simp only [String.data_append] at h2
  exact string_data_inj (List.append_cancel_left h2)

theorem foldl_key_const {α : Type} (c : α → Bool) (f : α → String) (K0 : String) :
    ∀ (ts : List α) (k0 : Option String), (∀ t ∈ ts, c t = true → f t = K0) →
    ts.foldl (fun k t => if c t then some (f t) else k) k0 =
      (if ts.any c then some K0 else k0)
  | [], k0, _ => by simp
  | t :: ts, k0, h => by
    rw [List.foldl_cons, foldl_key_const c f K0 ts _ (fun t' ht' hc => h t' (by simp [ht']) hc)]
    by_cases hc : c t
    · have hf : f t = K0 := h t (by simp) hc
      by_cases hany : ts.any c <;> simp [hc, hf, hany]
    · by_cases hany : ts.any c <;> simp [hc, hany]

end MedAlerts

namespace MedAlerts.Mjs

theorem sendLoop_spec (message : String) :
    ∀ (phones : List String) (sent : Nat) (sends : List Send),
    sent < MAX_SENDS_PER_RUN →
    (sendLoop message phones sent sends).1 =
      sent + min phones.length (MAX_SENDS_PER_RUN - sent) ∧
    (sendLoop message phones sent sends).2 =
      sends ++ (phones.take (MAX_SENDS_PER_RUN - sent)).map (fun p => ⟨p, message⟩)
  | [], sent, sends, _ => by simp [sendLoop]
  | p :: ps, sent, sends, h => by
    rw [sendLoop]
    by_cases hc : MAX_SENDS_PER_RUN ≤ sent + 1
    · have hm : MAX_SENDS_PER_RUN - sent = 1 := by omega
      have hmin : min (ps.length + 1) 1 = 1 := by omega
      simp [hc, hm, hmin]
    · have h1 : sent + 1 < MAX_SENDS_PER_RUN := by omega
      obtain ⟨ih1, ih2⟩ := sendLoop_spec message ps (sent + 1) (sends ++ [⟨p, message⟩]) h1
      have hm : MAX_SENDS_PER_RUN - sent = (MAX_SENDS_PER_RUN - (sent + 1)) + 1 := by omega
      constructor
      · simp only [hc, if_false]
        rw [ih1]
        simp only [List.length_cons]
        omega
      · simp only [hc, if_false]
        rw [ih2, hm]
        simp [List.take_succ_cons]

end MedAlerts.Mjs

namespace MedAlerts.Mjs

theorem processMed_skipped (ctx : Ctx) (med : Med) (prof : Option Profile) (s : Nat)
    (h : medSkipped med prof = true) :
    processMed ctx med prof s = ⟨med, none, s, [], []⟩ := by
  cases prof with
  | none => rfl
  | some profile =>
    unfold medSkipped at h
    unfold processMed
    by_cases he : profile.whatsapp_enabled = some false
    · simp [he]
    · by_cases hp : (filteredPhones profile).isEmpty
      · simp [he, hp]
      · by_cases hs : med.schedule_times.isEmpty
        · simp [he, hp, hs]
        · exfalso
          simp [he, hp, hs] at h

theorem processMed_not_skipped (ctx : Ctx) (med : Med) (profile : Profile) (s : Nat)
    (h : medSkipped med (some profile) = false) :
    processMed ctx med (some profile) s = evalMed ctx med profile s := by
  unfold medSkipped at h
  simp only [Bool.or_eq_false_iff, decide_eq_false_iff_not] at h
  obtain ⟨⟨he, hp⟩, hs⟩ := h
  unfold processMed
  simp [he, hp, hs]

theorem evalMed_frame (ctx : Ctx) (med : Med) (profile : Profile) (s : Nat) :
    (evalMed ctx med profile s).med.id = med.id ∧
    (evalMed ctx med profile s).med.user_id = med.user_id ∧
    (evalMed ctx med profile s).med.name = med.name ∧
    (evalMed ctx med profile s).med.unit = med.unit ∧
    (evalMed ctx med profile s).med.dose_amount = med.dose_amount ∧
    (evalMed ctx med profile s).med.low_threshold = med.low_threshold ∧
    (evalMed ctx med profile s).med.schedule_times = med.schedule_times ∧
    (evalMed ctx med profile s).med.alerts_enabled = med.alerts_enabled ∧
    (evalMed ctx med profile s).med.auto_deduct = med.auto_deduct ∧
    (evalMed ctx med profile s).med.notes = med.notes ∧
    (evalMed ctx med profile s).med.last_alert_key = med.last_alert_key := by
  unfold evalMed
  by_cases h : (evalAcc2 ctx med profile s).shouldUpdate <;> simp [h, applyUpdate]

theorem processMed_frame (ctx : Ctx) (med : Med) (prof : Option Profile) (s : Nat) :
    (processMed ctx med prof s).med.id = med.id ∧
    (processMed ctx med prof s).med.user_id = med.user_id ∧
    (processMed ctx med prof s).med.name = med.name ∧
    (processMed ctx med prof s).med.unit = med.unit ∧
    (processMed ctx med prof s).med.dose_amount = med.dose_amount ∧
    (processMed ctx med prof s).med.low_threshold = med.low_threshold ∧
    (processMed ctx med prof s).med.schedule_times = med.schedule_times ∧
    (processMed ctx med prof s).med.alerts_enabled = med.alerts_enabled ∧
    (processMed ctx med prof s).med.auto_deduct = med.auto_deduct ∧
    (processMed ctx med prof s).med.notes = med.notes ∧
    (processMed ctx med prof s).med.last_alert_key = med.last_alert_key := by
  by_cases h : medSkipped med prof
  · rw [processMed_skipped ctx med prof s h]
    simp
  · match prof with
    | none => simp [medSkipped] at h
    | some profile =>
      rw [processMed_not_skipped ctx med profile s (by simpa using h)]
      exact evalMed_frame ctx med profile s

theorem evalMed_events (ctx : Ctx) (med : Med) (profile : Profile) (s : Nat) :
    (evalMed ctx med profile s).events = (evalAcc2 ctx med profile s).events := by
  unfold evalMed
  by_cases h : (evalAcc2 ctx med profile s).shouldUpdate <;> simp [h]

theorem evalMed_sends (ctx : Ctx) (med : Med) (profile : Profile) (s : Nat) :
    (evalMed ctx med profile s).sends = (evalAcc2 ctx med profile s).sends := by
  unfold evalMed
  by_cases h : (evalAcc2 ctx med profile s).shouldUpdate <;> simp [h]

theorem evalMed_sentCount (ctx : Ctx) (med : Med) (profile : Profile) (s : Nat) :
    (evalMed ctx med profile s).sentCount = (evalAcc2 ctx med profile s).sentCount := by
  unfold evalMed
  by_cases h : (evalAcc2 ctx med profile s).shouldUpdate <;> simp [h]

theorem evalMed_update (ctx : Ctx) (med : Med) (profile : Profile) (s : Nat) :
    (evalMed ctx med profile s).update =
      (if (evalAcc2 ctx med profile s).shouldUpdate then
        some (mkUpdate (evalAcc2 ctx med profile s)
          (lowCond med (dateOf ctx profile)) (dateOf ctx profile))
      else none) := by
  unfold evalMed
  by_cases h : (evalAcc2 ctx med profile s).shouldUpdate <;> simp [h]

theorem evalMed_lastW (ctx : Ctx) (med : Med) (profile : Profile) (s : Nat) :
    (evalMed ctx med profile s).med.last_whatsapp_alert_key =
      (if (evalAcc2 ctx med profile s).shouldUpdate then
        (evalAcc2 ctx med profile s).newLastWhatsAppKey
      else med.last_whatsapp_alert_key) := by
  unfold evalMed
  by_cases h : (evalAcc2 ctx med profile s).shouldUpdate <;>
    simp [h, applyUpdate, mkUpdate]

theorem evalMed_autoKeyP (ctx : Ctx) (med : Med) (profile : Profile) (s : Nat) :
    (evalMed ctx med profile s).med.last_auto_dose_key =
      (if (evalAcc2 ctx med profile s).shouldUpdate then
        (evalAcc2 ctx med profile s).newLastAutoDoseKey
      else med.last_auto_dose_key) := by
  unfold evalMed
  by_cases h : (evalAcc2 ctx med profile s).shouldUpdate <;>
    simp [h, applyUpdate, mkUpdate]

theorem evalMed_lastLow (ctx : Ctx) (med : Med) (profile : Profile) (s : Nat) :
    (evalMed ctx med profile s).med.last_low_stock_whatsapp_date =
      (if (evalAcc2 ctx med profile s).shouldUpdate ∧
          lowCond med (dateOf ctx profile) then some (dateOf ctx profile)
      else med.last_low_stock_whatsapp_date) := by
  unfold evalMed
  by_cases h : (evalAcc2 ctx med profile s).shouldUpdate <;>
    by_cases hl : lowCond med (dateOf ctx profile) <;>
      simp [h, hl, applyUpdate, mkUpdate]

theorem evalMed_stockP (ctx : Ctx) (med : Med) (profile : Profile) (s : Nat) :
    (evalMed ctx med profile s).med.stock =
      (if (evalAcc2 ctx med profile s).shouldUpdate ∧
          ((evalAcc2 ctx med profile s).newLastTaken.isSome = true) then
        (evalAcc2 ctx med profile s).newStock
      else med.stock) := by
  unfold evalMed
  by_cases h : (evalAcc2 ctx med profile s).shouldUpdate <;>
    by_cases ht : (evalAcc2 ctx med profile s).newLastTaken.isSome <;>
      simp [h, ht, applyUpdate, mkUpdate]

theorem evalMed_lastTakenP (ctx : Ctx) (med : Med) (profile : Profile) (s : Nat) :
    (evalMed ctx med profile s).med.last_taken =
      (if (evalAcc2 ctx med profile s).shouldUpdate ∧
          ((evalAcc2 ctx med profile s).newLastTaken.isSome = true) then
        (evalAcc2 ctx med profile s).newLastTaken
      else med.last_taken) := by
  unfold evalMed
  by_cases h : (evalAcc2 ctx med profile s).shouldUpdate <;>
    by_cases ht : (evalAcc2 ctx med profile s).newLastTaken.isSome
  · obtain ⟨v, hv⟩ := Option.isSome_iff_exists.mp ht
    simp [h, ht, applyUpdate, mkUpdate, hv]
  · have hn : (evalAcc2 ctx med profile s).newLastTaken = none :=
      Option.not_isSome_iff_eq_none.mp (by simpa using ht)
    simp [h, ht, applyUpdate, mkUpdate, hn]
  · simp [h, ht, applyUpdate, mkUpdate]
  · simp [h, ht, applyUpdate, mkUpdate]

end MedAlerts.Mjs

namespace MedAlerts.Mjs

theorem evalAcc2_events (ctx : Ctx) (med : Med) (profile : Profile) (s : Nat) :
    (evalAcc2 ctx med profile s).events =
      ((med.schedule_times.filter
          (fun t => fireW med (dateOf ctx profile) (minutesOf ctx profile) t)).map
        (fun t => ⟨EventKind.doseReminder, buildAlertKey (dateOf ctx profile) t⟩)) ++
      (if lowCond med (dateOf ctx profile) then
        [⟨EventKind.lowStock, dateOf ctx profile⟩] else []) := by
  unfold evalAcc2
  by_cases hl : lowCond med (dateOf ctx profile) <;>
    simp [hl, lowStockStep, schedLoop_events, initAcc]

theorem evalAcc2_key (ctx : Ctx) (med : Med) (profile : Profile) (s : Nat) :
    (evalAcc2 ctx med profile s).newLastWhatsAppKey =
      med.schedule_times.foldl
        (fun k t => if fireW med (dateOf ctx profile) (minutesOf ctx profile) t then
          some (buildAlertKey (dateOf ctx profile) t) else k)
        med.last_whatsapp_alert_key := by
  unfold evalAcc2
  by_cases hl : lowCond med (dateOf ctx profile) <;>
    simp [hl, lowStockStep, schedLoop_key, initAcc]

theorem evalAcc2_autoKey (ctx : Ctx) (med : Med) (profile : Profile) (s : Nat) :
    (evalAcc2 ctx med profile s).newLastAutoDoseKey =
      med.schedule_times.foldl
        (fun k t => if fireA med (dateOf ctx profile) (minutesOf ctx profile) t then
          some (buildAlertKey (dateOf ctx profile) t) else k)
        med.last_auto_dose_key := by
  unfold evalAcc2
  by_cases hl : lowCond med (dateOf ctx profile) <;>
    simp [hl, lowStockStep, schedLoop_autoKey, initAcc]

theorem evalAcc2_lastTaken (ctx : Ctx) (med : Med) (profile : Profile) (s : Nat) :
    (evalAcc2 ctx med profile s).newLastTaken =
      (if med.schedule_times.any
          (fun t => fireA med (dateOf ctx profile) (minutesOf ctx profile) t) then
        some ctx.nowIso else none) := by
  unfold evalAcc2
  by_cases hl : lowCond med (dateOf ctx profile) <;>
    simp [hl, lowStockStep, schedLoop_lastTaken, initAcc]

theorem evalAcc2_shouldUpdate (ctx : Ctx) (med : Med) (profile : Profile) (s : Nat) :
    (evalAcc2 ctx med profile s).shouldUpdate =
      (med.schedule_times.any
        (fun t => fireW med (dateOf ctx profile) (minutesOf ctx profile) t ||
          fireA med (dateOf ctx profile) (minutesOf ctx profile) t) ||
        lowCond med (dateOf ctx profile)) := by
  unfold evalAcc2
  by_cases hl : lowCond med (dateOf ctx profile) <;>
    simp [hl, lowStockStep, schedLoop_shouldUpdate, initAcc]

theorem evalAcc2_stock_nonneg (ctx : Ctx) (med : Med) (profile : Profile) (s : Nat)
    (h : 0 ≤ med.stock) : 0 ≤ (evalAcc2 ctx med profile s).newStock := by
  unfold evalAcc2
  by_cases hl : lowCond med (dateOf ctx profile)
  · simp only [hl, if_true, lowStockStep]
    exact schedLoop_stock_nonneg _ _ _ _ _ _ _ (by simpa [initAcc] using h)
  · simp only [hl, if_false]
    exact schedLoop_stock_nonneg _ _ _ _ _ _ _ (by simpa [initAcc] using h)

end MedAlerts.Mjs

namespace MedAlerts

theorem isDue_iff (a b : Int) : isDue a b = true ↔ (0 ≤ a - b ∧ a - b ≤ 10) := by
  unfold isDue ALERT_WINDOW_MINUTES
  simp only []
  split_ifs with h
  · simp only [Bool.false_eq_true, false_iff]
    omega
  · simp only [true_iff]
    omega

/-- Claim C1: for every schedule entry and evaluation instant, the entry
is due iff `0 ≤ now-minutes − scheduled minute-of-day ≤ ALERT_WINDOW_MINUTES`
(constant 10); both boundaries 0 and `ALERT_WINDOW_MINUTES` are due; the
window plus any positive amount, or any negative difference, is not due,
and a not-due entry leaves the schedule-loop state untouched. -/
theorem C1_due_window (nowMinutes scheduledMinutes : Int) (e : Nat) :
    (isDue nowMinutes scheduledMinutes = true ↔
      0 ≤ nowMinutes - scheduledMinutes ∧
        nowMinutes - scheduledMinutes ≤ ALERT_WINDOW_MINUTES) ∧
    isDue scheduledMinutes scheduledMinutes = true ∧
    isDue (scheduledMinutes + ALERT_WINDOW_MINUTES) scheduledMinutes = true ∧
    isDue (scheduledMinutes + ALERT_WINDOW_MINUTES + ((e : Int) + 1))
      scheduledMinutes = false ∧
    isDue (scheduledMinutes - ((e : Int) + 1)) scheduledMinutes = false ∧
    (∀ (med : Mjs.Med) (phones : List String) (dateString nowIso t : String)
        (acc : EvalAcc),
      Mjs.stepTime med phones dateString (toMinutes t - ((e : Int) + 1)) nowIso t acc
        = acc) := by
  have hw : ALERT_WINDOW_MINUTES = (10 : Int) := rfl
  refine ⟨by rw [hw]; exact isDue_iff nowMinutes scheduledMinutes, ?_, ?_, ?_, ?_, ?_⟩
  · exact (isDue_iff _ _).mpr (by omega)
  · refine (isDue_iff _ _).mpr ?_
    rw [hw]
    omega
  · refine Bool.eq_false_iff.mpr (fun hc => ?_)
    have := (isDue_iff _ _).mp hc
    rw [hw] at this
    omega
  · refine Bool.eq_false_iff.mpr (fun hc => ?_)
    have := (isDue_iff _ _).mp hc
    omega
  · intro med phones dateString nowIso t acc
    refine Mjs.stepTime_not_due med phones dateString _ nowIso t acc ?_
    refine Bool.eq_false_iff.mpr (fun hc => ?_)
    have := (isDue_iff _ _).mp hc
    omega

end MedAlerts

namespace MedAlerts.Mjs

theorem processMed_stock_nonneg (ctx : Ctx) (med : Med) (prof : Option Profile)
    (s : Nat) (h : 0 ≤ med.stock) : 0 ≤ (processMed ctx med prof s).med.stock := by
  by_cases hs : medSkipped med prof
  · rw [processMed_skipped ctx med prof s hs]
    exact h
  · cases prof with
    | none => simp [medSkipped] at hs
    | some profile =>
      rw [processMed_not_skipped ctx med profile s (by simpa using hs)]
      rw [evalMed_stockP]
      split_ifs with hc
      · exact evalAcc2_stock_nonneg ctx med profile s h
      · exact h

theorem runSeq_stock_nonneg (prof : Option Profile) :
    ∀ (ctxs : List Ctx) (med : Med), 0 ≤ med.stock →
    0 ≤ (runSeq prof ctxs med).1.stock
  | [], _, h => h
  | c :: cs, med, h => by
    rw [runSeq]
    exact runSeq_stock_nonneg prof cs _ (processMed_stock_nonneg c med prof 0 h)

end MedAlerts.Mjs

namespace MedAlerts

/-- Claim C6: starting from non-negative stock, stock stays non-negative
after one evaluation pass (any number of schedule entries may deduct,
each clamped at zero) and after any number of batch invocations. -/
theorem C6_stock_nonneg (ctx : Ctx) (med : Mjs.Med) (prof : Option Profile)
    (sent0 : Nat) (ctxs : List Ctx) (h : 0 ≤ med.stock) :
    0 ≤ (Mjs.processMed ctx med prof sent0).med.stock ∧
    0 ≤ (Mjs.runSeq prof ctxs med).1.stock :=
  ⟨Mjs.processMed_stock_nonneg ctx med prof sent0 h,
   Mjs.runSeq_stock_nonneg prof ctxs med h⟩

/-- Witness for C6 at a concrete medication with stock 100. -/
theorem C6_stock_nonneg_witness :
    0 ≤ (Mjs.processMed sCtx483 sMedBase (some sProf1) 0).med.stock ∧
    0 ≤ (Mjs.runSeq (some sProf1) [sCtx483, sCtx487] sMedBase).1.stock :=
  C6_stock_nonneg sCtx483 sMedBase (some sProf1) 0 [sCtx483, sCtx487] (by decide)

end MedAlerts

namespace MedAlerts

/-- Claim C10: a batch-run update writes only the dedup fields (the two
keys always, the low-stock date exactly when that alert fired) plus
`stock` and `last_taken`, which appear in the payload exactly when
auto-deduction occurred in the pass; every other medication field (id,
owner, name, unit, dose amount, threshold, schedule, alerts-enabled,
auto-deduct, notes, the in-app key) is never modified. -/
theorem C10_update_frame (ctx : Ctx) (med : Mjs.Med) (prof : Option Profile)
    (profile : Profile) (sent0 : Nat) :
    ((Mjs.processMed ctx med prof sent0).med.id = med.id ∧
     (Mjs.processMed ctx med prof sent0).med.user_id = med.user_id ∧
     (Mjs.processMed ctx med prof sent0).med.name = med.name ∧
     (Mjs.processMed ctx med prof sent0).med.unit = med.unit ∧
     (Mjs.processMed ctx med prof sent0).med.dose_amount = med.dose_amount ∧
     (Mjs.processMed ctx med prof sent0).med.low_threshold = med.low_threshold ∧
     (Mjs.processMed ctx med prof sent0).med.schedule_times = med.schedule_times ∧
     (Mjs.processMed ctx med prof sent0).med.alerts_enabled = med.alerts_enabled ∧
     (Mjs.processMed ctx med prof sent0).med.auto_deduct = med.auto_deduct ∧
     (Mjs.processMed ctx med prof sent0).med.notes = med.notes ∧
     (Mjs.processMed ctx med prof sent0).med.last_alert_key = med.last_alert_key) ∧
    (∀ u, (Mjs.processMed ctx med (some profile) sent0).update = some u →
      u.stock.isSome = u.last_taken.isSome ∧
      u.last_taken.isSome = med.schedule_times.any
        (fun t => Mjs.fireA med (Mjs.dateOf ctx profile) (Mjs.minutesOf ctx profile) t) ∧
      u.last_low_stock_whatsapp_date =
        (if Mjs.lowCond med (Mjs.dateOf ctx profile) then
          some (Mjs.dateOf ctx profile) else none) ∧
      (u.last_taken = none →
        (Mjs.processMed ctx med (some profile) sent0).med.stock = med.stock ∧
        (Mjs.processMed ctx med (some profile) sent0).med.last_taken = med.last_taken)) := by
  constructor
  · exact Mjs.processMed_frame ctx med prof sent0
  · intro u hu
    by_cases hs : Mjs.medSkipped med (some profile)
    · rw [Mjs.processMed_skipped ctx med (some profile) sent0 hs] at hu
      cases hu
    · rw [Mjs.processMed_not_skipped ctx med profile sent0 (by simpa using hs)] at hu ⊢
      rw [Mjs.evalMed_update] at hu
      by_cases hup : (Mjs.evalAcc2 ctx med profile sent0).shouldUpdate
      · rw [if_pos hup] at hu
        have hu' : u = Mjs.mkUpdate (Mjs.evalAcc2 ctx med profile sent0)
            (Mjs.lowCond med (Mjs.dateOf ctx profile)) (Mjs.dateOf ctx profile) :=
          (Option.some_inj.mp hu).symm
        subst hu'
        refine ⟨?_, ?_, ?_, ?_⟩
        · unfold Mjs.mkUpdate
          by_cases ht : (Mjs.evalAcc2 ctx med profile sent0).newLastTaken.isSome <;>
            simp [ht]
        · unfold Mjs.mkUpdate
          simp only
          rw [Mjs.evalAcc2_lastTaken]
          by_cases ha : med.schedule_times.any
              (fun t => Mjs.fireA med (Mjs.dateOf ctx profile) (Mjs.minutesOf ctx profile) t) <;>
            simp [ha]
        · unfold Mjs.mkUpdate
          simp only
        · intro htn
          unfold Mjs.mkUpdate at htn
          simp only at htn
          rw [Mjs.evalMed_stockP, Mjs.evalMed_lastTakenP]
          simp [htn]
      · rw [if_neg hup] at hu
        cases hu

/-- Witness for C10: the concrete update issued for the base sample
medication contains no stock or last-taken field, and the row's stock and
last-taken are unchanged. -/
theorem C10_update_frame_witness :
    (Mjs.processMed sCtx483 sMedBase (some sProf1) 0).med.name = sMedBase.name ∧
    (Mjs.processMed sCtx483 sMedBase (some sProf1) 0).med.stock = sMedBase.stock ∧
    (Mjs.processMed sCtx483 sMedBase (some sProf1) 0).med.last_taken = sMedBase.last_taken := by
  have h := C10_update_frame sCtx483 sMedBase (some sProf1) sProf1 0
  have h2 := h.2 ⟨some "2024-03-01-08:00", none, none, none, none⟩ (by decide)
  exact ⟨h.1.2.2.1, (h2.2.2.2 rfl).1, (h2.2.2.2 rfl).2⟩

end MedAlerts

namespace MedAlerts.Mjs

theorem stepTime_sentCount (med : Med) (phones : List String) (d : String) (nm : Int)
    (iso t : String) (acc : EvalAcc) :
    (stepTime med phones d nm iso t acc).sentCount =
      (if fireW med d nm t then
        (sendLoop (reminderMsg med t) phones acc.sentCount acc.sends).1
      else acc.sentCount) := by
  unfold stepTime fireW
  by_cases hdue : isDue nm (toMinutes t)
  · by_cases hw : med.last_whatsapp_alert_key ≠ some (buildAlertKey d t) <;>
      by_cases ha : med.auto_deduct ∧ med.last_auto_dose_key ≠ some (buildAlertKey d t) <;>
        simp [hdue, hw, ha]
  · simp at hdue
    simp [hdue]

theorem stepTime_sends (med : Med) (phones : List String) (d : String) (nm : Int)
    (iso t : String) (acc : EvalAcc) :
    (stepTime med phones d nm iso t acc).sends =
      (if fireW med d nm t then
        (sendLoop (reminderMsg med t) phones acc.sentCount acc.sends).2
      else acc.sends) := by
  unfold stepTime fireW
  by_cases hdue : isDue nm (toMinutes t)
  · by_cases hw : med.last_whatsapp_alert_key ≠ some (buildAlertKey d t) <;>
      by_cases ha : med.auto_deduct ∧ med.last_auto_dose_key ≠ some (buildAlertKey d t) <;>
        simp [hdue, hw, ha]
  · simp at hdue
    simp [hdue]

theorem schedLoop_obsW_congr (med medB : Med) (phones : List String) (d : String)
    (nm : Int) (iso : String)
    (hfw : ∀ t, fireW medB d nm t = fireW med d nm t)
    (hmsg : ∀ t, reminderMsg medB t = reminderMsg med t) :
    ∀ (ts : List String) (acc accB : EvalAcc),
    accB.sentCount = acc.sentCount → accB.sends = acc.sends → accB.events = acc.events →
    (schedLoop medB phones d nm iso ts accB).sentCount =
      (schedLoop med phones d nm iso ts acc).sentCount ∧
    (schedLoop medB phones d nm iso ts accB).sends =
      (schedLoop med phones d nm iso ts acc).sends ∧
    (schedLoop medB phones d nm iso ts accB).events =
      (schedLoop med phones d nm iso ts acc).events
  | [], acc, accB, h1, h2, h3 => by simp [schedLoop, h1, h2, h3]
  | t :: ts, acc, accB, h1, h2, h3 => by
    rw [schedLoop, schedLoop]
    apply schedLoop_obsW_congr med medB phones d nm iso hfw hmsg ts
    · rw [stepTime_sentCount, stepTime_sentCount, hfw t, h1, h2, hmsg t]
    · rw [stepTime_sends, stepTime_sends, hfw t, h1, h2, hmsg t]
    · rw [stepTime_events, stepTime_events, hfw t, h3]

theorem schedLoop_obsA_congr (med medK : Med) (phones : List String) (d : String)
    (nm : Int) (iso : String)
    (hfa : ∀ t, fireA medK d nm t = fireA med d nm t)
    (hdose : medK.dose_amount = med.dose_amount) :
    ∀ (ts : List String) (acc accK : EvalAcc),
    accK.newLastAutoDoseKey = acc.newLastAutoDoseKey → accK.newStock = acc.newStock →
    accK.newLastTaken = acc.newLastTaken →
    (schedLoop medK phones d nm iso ts accK).newLastAutoDoseKey =
      (schedLoop med phones d nm iso ts acc).newLastAutoDoseKey ∧
    (schedLoop medK phones d nm iso ts accK).newStock =
      (schedLoop med phones d nm iso ts acc).newStock ∧
    (schedLoop medK phones d nm iso ts accK).newLastTaken =
      (schedLoop med phones d nm iso ts acc).newLastTaken
  | [], acc, accK, h1, h2, h3 => by simp [schedLoop, h1, h2, h3]
  | t :: ts, acc, accK, h1, h2, h3 => by
    rw [schedLoop, schedLoop]
    apply schedLoop_obsA_congr med medK phones d nm iso hfa hdose ts
    · rw [stepTime_autoKey, stepTime_autoKey, hfa t, h1]
    · rw [stepTime_stock, stepTime_stock, hfa t, h2, hdose]
    · rw [stepTime_lastTaken, stepTime_lastTaken, hfa t, h3]

end MedAlerts.Mjs

namespace MedAlerts.Mjs

theorem evalAcc2_obsW_congr (ctx : Ctx) (med medB : Med) (profile : Profile) (s : Nat)
    (hsched : medB.schedule_times = med.schedule_times)
    (hfw : ∀ t, fireW medB (dateOf ctx profile) (minutesOf ctx profile) t =
      fireW med (dateOf ctx profile) (minutesOf ctx profile) t)
    (hmsg : ∀ t, reminderMsg medB t = reminderMsg med t)
    (hinit : initAcc medB s = initAcc med s)
    (hlow : lowCond medB (dateOf ctx profile) = lowCond med (dateOf ctx profile))
    (hlmsg : lowMsg medB = lowMsg med) :
    (evalAcc2 ctx medB profile s).sentCount = (evalAcc2 ctx med profile s).sentCount ∧
    (evalAcc2 ctx medB profile s).sends = (evalAcc2 ctx med profile s).sends ∧
    (evalAcc2 ctx medB profile s).events = (evalAcc2 ctx med profile s).events := by
  obtain ⟨h1, h2, h3⟩ := schedLoop_obsW_congr med medB (filteredPhones profile)
    (dateOf ctx profile) (minutesOf ctx profile) ctx.nowIso hfw hmsg
    med.schedule_times (initAcc med s) (initAcc medB s)
    (by rw [hinit]) (by rw [hinit]) (by rw [hinit])
  unfold evalAcc2
  rw [hsched, hlow]
  by_cases hl : lowCond med (dateOf ctx profile)
  · simp only [hl, if_true, lowStockStep]
    refine ⟨by rw [hlmsg, h1, h2], by rw [hlmsg, h1, h2], by rw [h3]⟩
  · simp only [hl, Bool.false_eq_true, if_false]
    exact ⟨h1, h2, h3⟩

theorem evalAcc2_obsA_congr (ctx : Ctx) (med medK : Med) (profile : Profile) (s : Nat)
    (hsched : medK.schedule_times = med.schedule_times)
    (hfa : ∀ t, fireA medK (dateOf ctx profile) (minutesOf ctx profile) t =
      fireA med (dateOf ctx profile) (minutesOf ctx profile) t)
    (hdose : medK.dose_amount = med.dose_amount)
    (hinitA : (initAcc medK s).newLastAutoDoseKey = (initAcc med s).newLastAutoDoseKey)
    (hinitS : (initAcc medK s).newStock = (initAcc med s).newStock) :
    (evalAcc2 ctx medK profile s).newLastAutoDoseKey =
      (evalAcc2 ctx med profile s).newLastAutoDoseKey ∧
    (evalAcc2 ctx medK profile s).newStock = (evalAcc2 ctx med profile s).newStock ∧
    (evalAcc2 ctx medK profile s).newLastTaken =
      (evalAcc2 ctx med profile s).newLastTaken := by
  obtain ⟨h1, h2, h3⟩ := schedLoop_obsA_congr med medK (filteredPhones profile)
    (dateOf ctx profile) (minutesOf ctx profile) ctx.nowIso hfa hdose
    med.schedule_times (initAcc med s) (initAcc medK s) hinitA hinitS rfl
  unfold evalAcc2
  rw [hsched]
  by_cases hlK : lowCond medK (dateOf ctx profile) <;>
    by_cases hl : lowCond med (dateOf ctx profile) <;>
      simp [hlK, hl, lowStockStep, h1, h2, h3]

end MedAlerts.Mjs

namespace MedAlerts

/-- Claim C7: reminder dedup and auto-deduction dedup are tracked in
independent state: toggling the auto-deduct flag (all other inputs equal)
never changes the notification trace (emitted events and attempted sends)
of the pass, and replacing the stored last-reminder key by any value
never changes the persisted auto-deduction outcome (stock, last-taken,
last-auto-dose key). -/
theorem C7_independent_dedup (ctx : Ctx) (med : Mjs.Med) (profile : Profile)
    (sent0 : Nat) (b : Bool) (k : Option String) :
    (Mjs.processMed ctx { med with auto_deduct := b } (some profile) sent0).events =
      (Mjs.processMed ctx med (some profile) sent0).events ∧
    (Mjs.processMed ctx { med with auto_deduct := b } (some profile) sent0).sends =
      (Mjs.processMed ctx med (some profile) sent0).sends ∧
    (Mjs.processMed ctx { med with last_whatsapp_alert_key := k }
        (some profile) sent0).med.stock =
      (Mjs.processMed ctx med (some profile) sent0).med.stock ∧
    (Mjs.processMed ctx { med with last_whatsapp_alert_key := k }
        (some profile) sent0).med.last_taken =
      (Mjs.processMed ctx med (some profile) sent0).med.last_taken ∧
    (Mjs.processMed ctx { med with last_whatsapp_alert_key := k }
        (some profile) sent0).med.last_auto_dose_key =
      (Mjs.processMed ctx med (some profile) sent0).med.last_auto_dose_key := by
  by_cases hs : Mjs.medSkipped med (some profile)
  · have hsB : Mjs.medSkipped { med with auto_deduct := b } (some profile) = true := hs
    have hsK : Mjs.medSkipped { med with last_whatsapp_alert_key := k }
      (some profile) = true := hs
    rw [Mjs.processMed_skipped ctx { med with auto_deduct := b } (some profile) sent0 hsB,
      Mjs.processMed_skipped ctx { med with last_whatsapp_alert_key := k }
        (some profile) sent0 hsK,
      Mjs.processMed_skipped ctx med (some profile) sent0 hs]
    exact ⟨rfl, rfl, rfl, rfl, rfl⟩
  · have hns : Mjs.medSkipped med (some profile) = false := Bool.eq_false_iff.mpr hs
    have hnsB : Mjs.medSkipped { med with auto_deduct := b } (some profile) = false := hns
    have hnsK : Mjs.medSkipped { med with last_whatsapp_alert_key := k }
      (some profile) = false := hns
    rw [Mjs.processMed_not_skipped ctx { med with auto_deduct := b } profile sent0 hnsB,
      Mjs.processMed_not_skipped ctx { med with last_whatsapp_alert_key := k }
        profile sent0 hnsK,
      Mjs.processMed_not_skipped ctx med profile sent0 hns]
    obtain ⟨hw1, hw2, hw3⟩ := Mjs.evalAcc2_obsW_congr ctx med
      { med with auto_deduct := b } profile sent0 rfl (fun _ => rfl) (fun _ => rfl)
      rfl rfl rfl
    obtain ⟨ha1, ha2, ha3⟩ := Mjs.evalAcc2_obsA_congr ctx med
      { med with last_whatsapp_alert_key := k } profile sent0 rfl (fun _ => rfl)
      rfl rfl rfl
    refine ⟨?_, ?_, ?_, ?_, ?_⟩
    · rw [Mjs.evalMed_events, Mjs.evalMed_events]
      exact hw3
    · rw [Mjs.evalMed_sends, Mjs.evalMed_sends]
      exact hw2
    · rw [Mjs.evalMed_stockP, Mjs.evalMed_stockP]
      by_cases hany : med.schedule_times.any
          (fun t => Mjs.fireA med (Mjs.dateOf ctx profile) (Mjs.minutesOf ctx profile) t)
      · have hsu : (Mjs.evalAcc2 ctx med profile sent0).shouldUpdate = true := by
          rw [Mjs.evalAcc2_shouldUpdate]
          obtain ⟨t, ht, hft⟩ := List.any_eq_true.mp hany
          rw [Bool.or_eq_true]
          exact Or.inl (List.any_eq_true.mpr ⟨t, ht, by simp [hft]⟩)
        have hsuK : (Mjs.evalAcc2 ctx { med with last_whatsapp_alert_key := k }
            profile sent0).shouldUpdate = true := by
          rw [Mjs.evalAcc2_shouldUpdate]
          obtain ⟨t, ht, hft⟩ := List.any_eq_true.mp hany
          have ht' : t ∈ Mjs.Med.schedule_times
            { med with last_whatsapp_alert_key := k } := ht
          have hft' : Mjs.fireA { med with last_whatsapp_alert_key := k }
            (Mjs.dateOf ctx profile) (Mjs.minutesOf ctx profile) t = true := hft
          rw [Bool.or_eq_true]
          exact Or.inl (List.any_eq_true.mpr ⟨t, ht', by simp [hft']⟩)
        have hti : (Mjs.evalAcc2 ctx med profile sent0).newLastTaken.isSome = true := by
          rw [Mjs.evalAcc2_lastTaken]
          simp [hany]
        have htiK : (Mjs.evalAcc2 ctx { med with last_whatsapp_alert_key := k }
            profile sent0).newLastTaken.isSome = true := by
          rw [ha3]
          exact hti
        rw [if_pos ⟨hsuK, htiK⟩, if_pos ⟨hsu, hti⟩]
        exact ha2
      · have hti : (Mjs.evalAcc2 ctx med profile sent0).newLastTaken.isSome = false := by
          rw [Mjs.evalAcc2_lastTaken]
          simp [hany]
        have htiK : (Mjs.evalAcc2 ctx { med with last_whatsapp_alert_key := k }
            profile sent0).newLastTaken.isSome = false := by
          rw [ha3]
          exact hti
        rw [if_neg (fun hc => by rw [htiK] at hc; exact absurd hc.2 (by simp)),
          if_neg (fun hc => by rw [hti] at hc; exact absurd hc.2 (by simp))]
    · rw [Mjs.evalMed_lastTakenP, Mjs.evalMed_lastTakenP]
      by_cases hany : med.schedule_times.any
          (fun t => Mjs.fireA med (Mjs.dateOf ctx profile) (Mjs.minutesOf ctx profile) t)
      · have hsu : (Mjs.evalAcc2 ctx med profile sent0).shouldUpdate = true := by
          rw [Mjs.evalAcc2_shouldUpdate]
          obtain ⟨t, ht, hft⟩ := List.any_eq_true.mp hany
          rw [Bool.or_eq_true]
          exact Or.inl (List.any_eq_true.mpr ⟨t, ht, by simp [hft]⟩)
        have hsuK : (Mjs.evalAcc2 ctx { med with last_whatsapp_alert_key := k }
            profile sent0).shouldUpdate = true := by
          rw [Mjs.evalAcc2_shouldUpdate]
          obtain ⟨t, ht, hft⟩ := List.any_eq_true.mp hany
          have ht' : t ∈ Mjs.Med.schedule_times
            { med with last_whatsapp_alert_key := k } := ht
          have hft' : Mjs.fireA { med with last_whatsapp_alert_key := k }
            (Mjs.dateOf ctx profile) (Mjs.minutesOf ctx profile) t = true := hft
          rw [Bool.or_eq_true]
          exact Or.inl (List.any_eq_true.mpr ⟨t, ht', by simp [hft']⟩)
        have hti : (Mjs.evalAcc2 ctx med profile sent0).newLastTaken.isSome = true := by
          rw [Mjs.evalAcc2_lastTaken]
          simp [hany]
        have htiK : (Mjs.evalAcc2 ctx { med with last_whatsapp_alert_key := k }
            profile sent0).newLastTaken.isSome = true := by
          rw [ha3]
          exact hti
        rw [if_pos ⟨hsuK, htiK⟩, if_pos ⟨hsu, hti⟩]
        exact ha3
      · have hti : (Mjs.evalAcc2 ctx med profile sent0).newLastTaken.isSome = false := by
          rw [Mjs.evalAcc2_lastTaken]
          simp [hany]
        have htiK : (Mjs.evalAcc2 ctx { med with last_whatsapp_alert_key := k }
            profile sent0).newLastTaken.isSome = false := by
          rw [ha3]
          exact hti
        rw [if_neg (fun hc => by rw [htiK] at hc; exact absurd hc.2 (by simp)),
          if_neg (fun hc => by rw [hti] at hc; exact absurd hc.2 (by simp))]
    · rw [Mjs.evalMed_autoKeyP, Mjs.evalMed_autoKeyP]
      by_cases hany : med.schedule_times.any
          (fun t => Mjs.fireA med (Mjs.dateOf ctx profile) (Mjs.minutesOf ctx profile) t)
      · have hsu : (Mjs.evalAcc2 ctx med profile sent0).shouldUpdate = true := by
          rw [Mjs.evalAcc2_shouldUpdate]
          obtain ⟨t, ht, hft⟩ := List.any_eq_true.mp hany
          rw [Bool.or_eq_true]
          exact Or.inl (List.any_eq_true.mpr ⟨t, ht, by simp [hft]⟩)
        have hsuK : (Mjs.evalAcc2 ctx { med with last_whatsapp_alert_key := k }
            profile sent0).shouldUpdate = true := by
          rw [Mjs.evalAcc2_shouldUpdate]
          obtain ⟨t, ht, hft⟩ := List.any_eq_true.mp hany
          have ht' : t ∈ Mjs.Med.schedule_times
            { med with last_whatsapp_alert_key := k } := ht
          have hft' : Mjs.fireA { med with last_whatsapp_alert_key := k }
            (Mjs.dateOf ctx profile) (Mjs.minutesOf ctx profile) t = true := hft
          rw [Bool.or_eq_true]
          exact Or.inl (List.any_eq_true.mpr ⟨t, ht', by simp [hft']⟩)
        rw [if_pos hsuK, if_pos hsu]
        exact ha1
      · have hAK : (Mjs.evalAcc2 ctx med profile sent0).newLastAutoDoseKey =
            med.last_auto_dose_key := by
          rw [Mjs.evalAcc2_autoKey]
          rw [foldl_key_const
            (fun t => Mjs.fireA med (Mjs.dateOf ctx profile) (Mjs.minutesOf ctx profile) t)
            (fun t => buildAlertKey (Mjs.dateOf ctx profile) t) ""
            med.schedule_times med.last_auto_dose_key
            (fun t ht hc => absurd hc (by
              have hany2 : med.schedule_times.any
                  (fun t => Mjs.fireA med (Mjs.dateOf ctx profile)
                    (Mjs.minutesOf ctx profile) t) = false :=
                Bool.eq_false_iff.mpr hany
              have := List.any_eq_false.mp hany2 t ht
              simpa using this))]
          simp [hany]
        have hAKK : (Mjs.evalAcc2 ctx { med with last_whatsapp_alert_key := k }
            profile sent0).newLastAutoDoseKey = med.last_auto_dose_key :=
          ha1.trans hAK
        split_ifs
        · rw [hAKK, hAK]
        · rw [hAKK]
        · rw [hAK]
        · rfl

end MedAlerts

namespace MedAlerts

theorem countLow_append (a b : List Event) :
    countLow (a ++ b) = countLow a + countLow b := by
  simp [countLow, List.filter_append]

end MedAlerts

namespace MedAlerts.Mjs

theorem countLow_processMed (ctx : Ctx) (med : Med) (profile : Profile) (s : Nat)
    (hns : medSkipped med (some profile) = false) :
    countLow (processMed ctx med (some profile) s).events =
      (if lowCond med (dateOf ctx profile) then 1 else 0) := by
  rw [processMed_not_skipped ctx med profile s hns, evalMed_events, evalAcc2_events]
  by_cases hl : lowCond med (dateOf ctx profile) <;>
    simp [hl, countLow, List.filter_append, List.filter_map, Function.comp]

theorem countLow_processMed_skipped (ctx : Ctx) (med : Med) (prof : Option Profile)
    (s : Nat) (hsk : medSkipped med prof = true) :
    countLow (processMed ctx med prof s).events = 0 := by
  rw [processMed_skipped ctx med prof s hsk]
  rfl

theorem processMed_lastLow (ctx : Ctx) (med : Med) (profile : Profile) (s : Nat) :
    (processMed ctx med (some profile) s).med.last_low_stock_whatsapp_date =
      (if medSkipped med (some profile) = false ∧
          lowCond med (dateOf ctx profile) = true then some (dateOf ctx profile)
      else med.last_low_stock_whatsapp_date) := by
  by_cases hs : medSkipped med (some profile)
  · rw [processMed_skipped ctx med (some profile) s hs]
    simp [hs]
  · have hns := Bool.eq_false_iff.mpr hs
    rw [processMed_not_skipped ctx med profile s hns, evalMed_lastLow]
    by_cases hl : lowCond med (dateOf ctx profile)
    · have hsu : (evalAcc2 ctx med profile s).shouldUpdate = true := by
        rw [evalAcc2_shouldUpdate]
        simp [hl]
      simp [hsu, hl, hns]
    · simp [hl, hns]

theorem runSeq_low_zero (profile : Profile) (d : String) :
    ∀ (ctxs : List Ctx) (med : Med), (∀ c ∈ ctxs, dateOf c profile = d) →
    med.last_low_stock_whatsapp_date = some d →
    countLow (runSeq (some profile) ctxs med).2 = 0
  | [], _, _, _ => rfl
  | c :: cs, med, hd, hmed => by
    rw [runSeq]
    simp only
    rw [countLow_append]
    have hlc : lowCond med (dateOf c profile) = false := by
      unfold lowCond
      rw [hd c (by simp), hmed]
      simp
    have h0 : countLow (processMed c med (some profile) 0).events = 0 := by
      by_cases hs : medSkipped med (some profile)
      · exact countLow_processMed_skipped c med (some profile) 0 hs
      · rw [countLow_processMed c med profile 0 (Bool.eq_false_iff.mpr hs), hlc]
        simp
    have hmed' : (processMed c med (some profile) 0).med.last_low_stock_whatsapp_date =
        some d := by
      rw [processMed_lastLow]
      split_ifs with hcond
      · exact absurd hcond.2 (by simp [hlc])
      · exact hmed
    rw [h0, runSeq_low_zero profile d cs _ (fun c' hc' => hd c' (by simp [hc'])) hmed']

theorem runSeq_low_le_one (profile : Profile) (d : String) :
    ∀ (ctxs : List Ctx) (med : Med), (∀ c ∈ ctxs, dateOf c profile = d) →
    countLow (runSeq (some profile) ctxs med).2 ≤ 1
  | [], _, _ => by simp [runSeq, countLow]
  | c :: cs, med, hd => by
    rw [runSeq]
    simp only
    rw [countLow_append]
    by_cases hs : medSkipped med (some profile)
    · rw [countLow_processMed_skipped c med (some profile) 0 hs]
      have hmm : (processMed c med (some profile) 0).med = med := by
        rw [processMed_skipped c med (some profile) 0 hs]
      rw [hmm]
      simpa using runSeq_low_le_one profile d cs med (fun c' hc' => hd c' (by simp [hc']))
    · have hns := Bool.eq_false_iff.mpr hs
      by_cases hl : lowCond med (dateOf c profile)
      · rw [countLow_processMed c med profile 0 hns, if_pos hl]
        have hset : (processMed c med (some profile) 0).med.last_low_stock_whatsapp_date =
            some d := by
          rw [processMed_lastLow, if_pos ⟨hns, hl⟩, hd c (by simp)]
        rw [runSeq_low_zero profile d cs _ (fun c' hc' => hd c' (by simp [hc'])) hset]
      · rw [countLow_processMed c med profile 0 hns, if_neg hl]
        simpa using runSeq_low_le_one profile d cs _
          (fun c' hc' => hd c' (by simp [hc']))

end MedAlerts.Mjs

namespace MedAlerts

/-- Claim C4: for a processed medication, the pass emits a low-stock
notification exactly when the stored stock is at or below the threshold
and the stored low-stock date differs from today's local date; when it
fires, the persisted date becomes today; and over any sequence of
invocations on the same local date, the low-stock notification fires at
most once. -/
theorem C4_low_stock_daily (ctx : Ctx) (med : Mjs.Med) (profile : Profile)
    (sent0 : Nat) (ctxs : List Ctx) (d : String)
    (hns : Mjs.medSkipped med (some profile) = false)
    (hd : ∀ c ∈ ctxs, Mjs.dateOf c profile = d) :
    (countLow (Mjs.processMed ctx med (some profile) sent0).events =
      (if med.stock ≤ med.low_threshold ∧
          med.last_low_stock_whatsapp_date ≠ some (Mjs.dateOf ctx profile) then
        1 else 0)) ∧
    (Mjs.lowCond med (Mjs.dateOf ctx profile) = true →
      (Mjs.processMed ctx med (some profile) sent0).med.last_low_stock_whatsapp_date =
        some (Mjs.dateOf ctx profile)) ∧
    countLow (Mjs.runSeq (some profile) ctxs med).2 ≤ 1 := by
  refine ⟨?_, ?_, Mjs.runSeq_low_le_one profile d ctxs med hd⟩
  · rw [Mjs.countLow_processMed ctx med profile sent0 hns]
    by_cases hp : med.stock ≤ med.low_threshold ∧
        med.last_low_stock_whatsapp_date ≠ some (Mjs.dateOf ctx profile)
    · rw [if_pos hp]
      have : Mjs.lowCond med (Mjs.dateOf ctx profile) = true := by
        unfold Mjs.lowCond
        simp [hp.1, hp.2]
      rw [this]
      rfl
    · rw [if_neg hp]
      have : Mjs.lowCond med (Mjs.dateOf ctx profile) = false := by
        unfold Mjs.lowCond
        rcases Decidable.not_and_iff_or_not.mp hp with h | h
        · simp [h]
        · simp at h
          simp [h]
      rw [this]
      rfl
  · intro hl
    rw [Mjs.processMed_lastLow]
    rw [if_pos ⟨hns, hl⟩]

/-- Witness for C4 at a medication with stock 1 and threshold 5. -/
theorem C4_low_stock_daily_witness :
    countLow (Mjs.processMed sCtx483 sMedLow (some sProf1) 0).events = 1 ∧
    (Mjs.processMed sCtx483 sMedLow (some sProf1) 0).med.last_low_stock_whatsapp_date =
      some "2024-03-01" ∧
    countLow (Mjs.runSeq (some sProf1) [sCtx483, sCtx487] sMedLow).2 ≤ 1 := by
  obtain ⟨h1, h2, h3⟩ := C4_low_stock_daily sCtx483 sMedLow sProf1 0
    [sCtx483, sCtx487] "2024-03-01" (by decide)
    (by
      intro c hc
      simp only [List.mem_cons, List.not_mem_nil, or_false] at hc
      rcases hc with h | h <;> subst h <;> rfl)
  refine ⟨?_, ?_, h3⟩
  · rw [h1]
    decide
  · exact h2 (by decide)

end MedAlerts

namespace MedAlerts.Mjs

theorem reminderKeys_processMed (ctx : Ctx) (med : Med) (profile : Profile) (s : Nat)
    (hns : medSkipped med (some profile) = false) :
    reminderKeys (processMed ctx med (some profile) s).events =
      (med.schedule_times.filter
        (fun t => fireW med (dateOf ctx profile) (minutesOf ctx profile) t)).map
        (fun t => buildAlertKey (dateOf ctx profile) t) := by
  rw [processMed_not_skipped ctx med profile s hns, evalMed_events, evalAcc2_events]
  by_cases hl : lowCond med (dateOf ctx profile) <;>
    simp [hl, reminderKeys, List.filter_append, List.filter_map, List.map_map,
      Function.comp]

end MedAlerts.Mjs

namespace MedAlerts

/-- Claim C3 (amended): within one evaluation pass, provided the
schedule's time strings are pairwise distinct, at most one dose-reminder
is emitted per occurrence key, and every due entry whose key differs from
the medication's stored last-reminder key fires exactly once. (The code
compares each entry against the stored key, so a duplicated time string
would fire once per copy — see the counterexample.) -/
theorem C3_same_pass_dedup (ctx : Ctx) (med : Mjs.Med) (profile : Profile) (sent0 : Nat)
    (hnd : med.schedule_times.Nodup)
    (hns : Mjs.medSkipped med (some profile) = false) :
    (∀ K, (reminderKeys
        (Mjs.processMed ctx med (some profile) sent0).events).count K ≤ 1) ∧
    (∀ t ∈ med.schedule_times,
      isDue (Mjs.minutesOf ctx profile) (toMinutes t) = true →
      med.last_whatsapp_alert_key ≠ some (buildAlertKey (Mjs.dateOf ctx profile) t) →
      (reminderKeys (Mjs.processMed ctx med (some profile) sent0).events).count
        (buildAlertKey (Mjs.dateOf ctx profile) t) = 1) := by
  rw [Mjs.reminderKeys_processMed ctx med profile sent0 hns]
  have hnodup : ((med.schedule_times.filter
      (fun t => Mjs.fireW med (Mjs.dateOf ctx profile) (Mjs.minutesOf ctx profile) t)).map
      (fun t => buildAlertKey (Mjs.dateOf ctx profile) t)).Nodup :=
    List.Nodup.map (fun a b hab => buildAlertKey_inj (Mjs.dateOf ctx profile) hab)
      (List.Nodup.filter _ hnd)
  constructor
  · intro K
    exact List.nodup_iff_count_le_one.mp hnodup K
  · intro t ht hdue hne
    apply List.count_eq_one_of_mem hnodup
    refine List.mem_map_of_mem _ (List.mem_filter.mpr ⟨ht, ?_⟩)
    unfold Mjs.fireW
    simp [hdue, hne]

/-- Counterexample to C3 as stated: a schedule that repeats "08:00" emits
two dose reminders for the same occurrence key within a single pass,
because each entry is compared against the stored last-reminder key. -/
theorem C3_counterexample :
    (reminderKeys (Mjs.processMed sCtx483 sMedDup (some sProf1) 0).events).count
      "2024-03-01-08:00" = 2 := by decide

/-- Witness for the amended C3 on a duplicate-free schedule. -/
theorem C3_same_pass_dedup_witness :
    (reminderKeys (Mjs.processMed sCtx483 sMedBase (some sProf1) 0).events).count
      "2024-03-01-08:00" = 1 := by
  have h := C3_same_pass_dedup sCtx483 sMedBase sProf1 0 (by decide) (by decide)
  exact h.2 "08:00" (by decide) (by decide) (by decide)

end MedAlerts

namespace MedAlerts.Mjs

theorem runMeds_remaining_suffix (ctx : Ctx) :
    ∀ (meds : List (Med × Option Profile)) (sent : Nat),
    ∃ pre, pre ++ (runMeds ctx meds sent).remaining = meds
  | [], _ => ⟨[], rfl⟩
  | (m, p) :: rest, sent => by
    rw [runMeds]
    by_cases hs : medSkipped m p
    · rw [if_pos hs]
      obtain ⟨pre, hp⟩ := runMeds_remaining_suffix ctx rest sent
      exact ⟨(m, p) :: pre, by simp [hp]⟩
    · rw [if_neg hs]
      simp only
      by_cases hc : MAX_SENDS_PER_RUN ≤ (processMed ctx m p sent).sentCount
      · rw [if_pos hc]
        exact ⟨[(m, p)], rfl⟩
      · rw [if_neg hc]
        obtain ⟨pre, hp⟩ :=
          runMeds_remaining_suffix ctx rest (processMed ctx m p sent).sentCount
        exact ⟨(m, p) :: pre, by simp [hp]⟩

theorem runMeds_cap (ctx : Ctx) :
    ∀ (meds : List (Med × Option Profile)) (sent : Nat),
    (runMeds ctx meds sent).remaining ≠ [] →
    MAX_SENDS_PER_RUN ≤ (runMeds ctx meds sent).sentCount
  | [], _, h => absurd rfl h
  | (m, p) :: rest, sent, h => by
    rw [runMeds] at h ⊢
    by_cases hs : medSkipped m p
    · rw [if_pos hs] at h ⊢
      exact runMeds_cap ctx rest sent h
    · rw [if_neg hs] at h ⊢
      simp only at h ⊢
      by_cases hc : MAX_SENDS_PER_RUN ≤ (processMed ctx m p sent).sentCount
      · rw [if_pos hc]
        exact hc
      · rw [if_neg hc] at h ⊢
        exact runMeds_cap ctx rest (processMed ctx m p sent).sentCount h

end MedAlerts.Mjs

namespace MedAlerts

/-- Claim C5 (amended): the cap is enforced between medications: whatever
medications remain unprocessed when a run stops are a verbatim suffix of
the input (left for the next invocation), and a non-empty remainder
implies the send count reached the cap; however sends for the in-progress
medication's remaining notifications may still be attempted after the cap
is hit, so a run can exceed the cap (see the counterexample). -/
theorem C5_cap_stops_later_meds (ctx : Ctx) (meds : List (Mjs.Med × Option Profile))
    (sent0 : Nat) :
    (∃ pre, pre ++ (Mjs.runMeds ctx meds sent0).remaining = meds) ∧
    ((Mjs.runMeds ctx meds sent0).remaining ≠ [] →
      Mjs.MAX_SENDS_PER_RUN ≤ (Mjs.runMeds ctx meds sent0).sentCount) :=
  ⟨Mjs.runMeds_remaining_suffix ctx meds sent0, Mjs.runMeds_cap ctx meds sent0⟩

/-- Counterexample to C5 as stated: one medication with fifty usable
phones, a due reminder and a firing low-stock alert attempts 51 sends in
one invocation though the cap is 50 — the low-stock block still sends
after the cap was reached inside the reminder's phone loop. -/
theorem C5_counterexample :
    (Mjs.runMeds sCtx483 [(sMedLow, some sProf50)] 0).sentCount = 51 ∧
    Mjs.MAX_SENDS_PER_RUN < 51 := by
  constructor
  · decide
  · decide

/-- Witness for the amended C5: with a cap-exhausting first medication,
the second medication is left unprocessed and the count is at the cap. -/
theorem C5_cap_stops_later_meds_witness :
    (∃ pre, pre ++ (Mjs.runMeds sCtx483
        [(sMedLow, some sProf50), (sMedBase, some sProf1)] 0).remaining =
      [(sMedLow, some sProf50), (sMedBase, some sProf1)]) ∧
    Mjs.MAX_SENDS_PER_RUN ≤ (Mjs.runMeds sCtx483
      [(sMedLow, some sProf50), (sMedBase, some sProf1)] 0).sentCount := by
  obtain ⟨h1, h2⟩ := C5_cap_stops_later_meds sCtx483
    [(sMedLow, some sProf50), (sMedBase, some sProf1)] 0
  exact ⟨h1, h2 (by decide)⟩

end MedAlerts
namespace MedAlerts.Mjs

theorem schedLoop_append (med : Med) (phones : List String) (d : String) (nm : Int)
    (iso : String) : ∀ (l1 l2 : List String) (acc : EvalAcc),
    schedLoop med phones d nm iso (l1 ++ l2) acc =
      schedLoop med phones d nm iso l2 (schedLoop med phones d nm iso l1 acc)
  | [], _, _ => rfl
  | x :: l1, l2, acc => by
    rw [List.cons_append, schedLoop, schedLoop]
    exact schedLoop_append med phones d nm iso l1 l2 _

end MedAlerts.Mjs

namespace MedAlerts

/-- Claim C9 (amended): in the Node runner, when the per-run cap is
reached partway through a dose-reminder's recipient list and that
occurrence is the only one due in the pass (schedule times pairwise
distinct), sends stop at the cap (a strict prefix of the phone list), the
last-reminder key is advanced to the occurrence and persisted in the
issued update, and a later evaluation of the persisted row emits no
dose-reminder for any entry of that schedule at the same instant — the
skipped addresses are never sent that occurrence's reminder. (With a
second due entry bearing a different key the persisted key is the last
fired entry's and the skipped addresses do receive the capped occurrence
on the next invocation — see the counterexample.) -/
theorem C9_cap_mid_phones_advances_key (ctx : Ctx) (med : Mjs.Med) (profile : Profile)
    (sent0 : Nat) (t : String)
    (ht : t ∈ med.schedule_times)
    (hnd : med.schedule_times.Nodup)
    (honly : ∀ t' ∈ med.schedule_times,
      isDue (Mjs.minutesOf ctx profile) (toMinutes t') = true → t' = t)
    (hdue : isDue (Mjs.minutesOf ctx profile) (toMinutes t) = true)
    (hkey : med.last_whatsapp_alert_key ≠ some (buildAlertKey (Mjs.dateOf ctx profile) t))
    (hen : profile.whatsapp_enabled ≠ some false)
    (hlow : Mjs.lowCond med (Mjs.dateOf ctx profile) = false)
    (hsent : sent0 < Mjs.MAX_SENDS_PER_RUN)
    (hover : Mjs.MAX_SENDS_PER_RUN < sent0 + (filteredPhones profile).length) :
    (Mjs.processMed ctx med (some profile) sent0).sends.length =
      Mjs.MAX_SENDS_PER_RUN - sent0 ∧
    (Mjs.processMed ctx med (some profile) sent0).sends.length <
      (filteredPhones profile).length ∧
    (∃ u, (Mjs.processMed ctx med (some profile) sent0).update = some u ∧
      u.last_whatsapp_alert_key = some (buildAlertKey (Mjs.dateOf ctx profile) t)) ∧
    (Mjs.processMed ctx med (some profile) sent0).med.last_whatsapp_alert_key =
      some (buildAlertKey (Mjs.dateOf ctx profile) t) ∧
    (∀ sent', reminderKeys (Mjs.processMed ctx
      (Mjs.processMed ctx med (some profile) sent0).med (some profile) sent').events
        = []) := by
  have hlen : 0 < (filteredPhones profile).length := by omega
  have hpne : filteredPhones profile ≠ [] := List.length_pos.mp hlen
  have hsne : med.schedule_times ≠ [] := List.ne_nil_of_mem ht
  have hns : Mjs.medSkipped med (some profile) = false := by
    unfold Mjs.medSkipped
    simp [hen, List.isEmpty_iff, hpne, hsne]
  have hfw : Mjs.fireW med (Mjs.dateOf ctx profile) (Mjs.minutesOf ctx profile) t
      = true := by
    unfold Mjs.fireW
    simp [hdue, hkey]
  obtain ⟨l1, l2, hsplit⟩ := List.append_of_mem ht
  have hnd2 := hnd
  rw [hsplit, List.nodup_append] at hnd2
  have htl1 : t ∉ l1 := fun hmem => hnd2.2.2 hmem (by simp)
  have hnofire : ∀ t' : String, t' ∈ l1 ∨ t' ∈ l2 →
      Mjs.fireW med (Mjs.dateOf ctx profile) (Mjs.minutesOf ctx profile) t' = false ∧
      Mjs.fireA med (Mjs.dateOf ctx profile) (Mjs.minutesOf ctx profile) t' = false := by
    intro t' hmem12
    have hmem : t' ∈ med.schedule_times := by
      rw [hsplit]
      rcases hmem12 with h | h
      · exact List.mem_append_left _ h
      · exact List.mem_append_right _ (List.mem_cons_of_mem _ h)
    have hne2 : t' ≠ t := by
      intro he
      subst he
      rcases hmem12 with h | h
      · exact htl1 h
      · exact (List.nodup_cons.mp hnd2.2.1).1 h
    have hdue' : isDue (Mjs.minutesOf ctx profile) (toMinutes t') = false := by
      by_cases h : isDue (Mjs.minutesOf ctx profile) (toMinutes t') = true
      · exact absurd (honly t' hmem h) hne2
      · exact Bool.eq_false_iff.mpr h
    constructor
    · unfold Mjs.fireW
      rw [hdue']
      rfl
    · unfold Mjs.fireA
      rw [hdue']
      rfl
  have hfold : Mjs.schedLoop med (filteredPhones profile) (Mjs.dateOf ctx profile)
      (Mjs.minutesOf ctx profile) ctx.nowIso med.schedule_times
      (Mjs.initAcc med sent0) =
      Mjs.stepTime med (filteredPhones profile) (Mjs.dateOf ctx profile)
        (Mjs.minutesOf ctx profile) ctx.nowIso t (Mjs.initAcc med sent0) := by
    rw [hsplit, Mjs.schedLoop_append,
      Mjs.schedLoop_no_fire _ _ _ _ _ l1 _ (fun x hx => hnofire x (Or.inl hx)),
      Mjs.schedLoop]
    exact Mjs.schedLoop_no_fire _ _ _ _ _ l2 _ (fun x hx => hnofire x (Or.inr hx))
  have hacc : Mjs.evalAcc2 ctx med profile sent0 =
      Mjs.stepTime med (filteredPhones profile) (Mjs.dateOf ctx profile)
        (Mjs.minutesOf ctx profile) ctx.nowIso t (Mjs.initAcc med sent0) := by
    unfold Mjs.evalAcc2
    simp only [hlow, Bool.false_eq_true, if_false]
    exact hfold
  obtain ⟨hsl1, hsl2⟩ := Mjs.sendLoop_spec (Mjs.reminderMsg med t)
    (filteredPhones profile) sent0 [] hsent
  have hsends : (Mjs.evalAcc2 ctx med profile sent0).sends =
      (Mjs.sendLoop (Mjs.reminderMsg med t) (filteredPhones profile) sent0 []).2 := by
    rw [hacc, Mjs.stepTime_sends]
    simp [hfw, Mjs.initAcc]
  have hkey2 : (Mjs.evalAcc2 ctx med profile sent0).newLastWhatsAppKey =
      some (buildAlertKey (Mjs.dateOf ctx profile) t) := by
    rw [hacc, Mjs.stepTime_key]
    simp [hfw]
  have hsu : (Mjs.evalAcc2 ctx med profile sent0).shouldUpdate = true := by
    rw [hacc, Mjs.stepTime_shouldUpdate]
    simp [hfw, Mjs.initAcc]
  have hlen1 : (Mjs.processMed ctx med (some profile) sent0).sends.length =
      Mjs.MAX_SENDS_PER_RUN - sent0 := by
    rw [Mjs.processMed_not_skipped ctx med profile sent0 hns, Mjs.evalMed_sends,
      hsends, hsl2]
    simp only [List.nil_append, List.length_map, List.length_take]
    omega
  have hkey4 : (Mjs.processMed ctx med (some profile) sent0).med.last_whatsapp_alert_key =
      some (buildAlertKey (Mjs.dateOf ctx profile) t) := by
    rw [Mjs.processMed_not_skipped ctx med profile sent0 hns, Mjs.evalMed_lastW,
      if_pos hsu]
    exact hkey2
  refine ⟨hlen1, by omega, ?_, hkey4, ?_⟩
  · rw [Mjs.processMed_not_skipped ctx med profile sent0 hns, Mjs.evalMed_update,
      if_pos hsu]
    refine ⟨_, rfl, ?_⟩
    unfold Mjs.mkUpdate
    exact hkey2
  · intro sent'
    have hframe := Mjs.processMed_frame ctx med (some profile) sent0
    have hsched1 : (Mjs.processMed ctx med (some profile) sent0).med.schedule_times
        = med.schedule_times := hframe.2.2.2.2.2.2.1
    have hns1 : Mjs.medSkipped (Mjs.processMed ctx med (some profile) sent0).med
        (some profile) = false := by
      unfold Mjs.medSkipped
      rw [hsched1]
      simp [hen, List.isEmpty_iff, hpne, hsne]
    rw [Mjs.reminderKeys_processMed ctx _ profile sent' hns1, hsched1]
    have hall : ∀ t' ∈ med.schedule_times,
        Mjs.fireW (Mjs.processMed ctx med (some profile) sent0).med
          (Mjs.dateOf ctx profile) (Mjs.minutesOf ctx profile) t' = false := by
      intro t' hmem
      by_cases he : t' = t
      · subst he
        unfold Mjs.fireW
        rw [hkey4]
        simp
      · have hdue' : isDue (Mjs.minutesOf ctx profile) (toMinutes t') = false := by
          by_cases h : isDue (Mjs.minutesOf ctx profile) (toMinutes t') = true
          · exact absurd (honly t' hmem h) he
          · exact Bool.eq_false_iff.mpr h
        unfold Mjs.fireW
        rw [hdue']
        rfl
    rw [List.filter_eq_nil_iff.mpr (fun a ha => by simp [hall a ha])]
    rfl

/-- Counterexample to C9 as stated: schedule ["08:00","08:05"] at 08:07,
phones ["111","222"], count 49 of cap 50. The 08:00 send loop stops after
"111", but the 08:05 entry also fires and overwrites the in-progress key,
so the persisted key is the 08:05 key; the next invocation re-fires the
08:00 occurrence and sends its reminder to the skipped address "222". -/
theorem C9_counterexample :
    (Mjs.processMed sCtx487 sMedTwo (some sProf2) 49).med.last_whatsapp_alert_key =
      some "2024-03-01-08:05" ∧
    (⟨"222", Mjs.reminderMsg sMedTwo "08:00"⟩ : Send) ∉
      (Mjs.processMed sCtx487 sMedTwo (some sProf2) 49).sends ∧
    (⟨"222", Mjs.reminderMsg sMedTwo "08:00"⟩ : Send) ∈
      (Mjs.processMed sCtx487
        (Mjs.processMed sCtx487 sMedTwo (some sProf2) 49).med
        (some sProf2) 0).sends := by
  refine ⟨by decide, by decide, by decide⟩

/-- Witness for the amended C9: cap 50, count already 49, two phones, one
due entry: one send goes out, the key advances, and the persisted row
never re-fires. -/
theorem C9_cap_mid_phones_advances_key_witness :
    (Mjs.processMed sCtx483 sMedBase (some sProf2) 49).sends.length = 1 ∧
    (Mjs.processMed sCtx483 sMedBase (some sProf2) 49).sends.length < 2 ∧
    (∃ u, (Mjs.processMed sCtx483 sMedBase (some sProf2) 49).update = some u ∧
      u.last_whatsapp_alert_key = some "2024-03-01-08:00") ∧
    (Mjs.processMed sCtx483 sMedBase (some sProf2) 49).med.last_whatsapp_alert_key =
      some "2024-03-01-08:00" ∧
    (∀ sent', reminderKeys (Mjs.processMed sCtx483
      (Mjs.processMed sCtx483 sMedBase (some sProf2) 49).med (some sProf2) sent').events
        = []) :=
  C9_cap_mid_phones_advances_key sCtx483 sMedBase sProf2 49 "08:00" (by decide)
    (by decide) (by decide) (by decide) (by decide) (by decide) (by decide)
    (by decide) (by decide)

end MedAlerts

namespace MedAlerts

/-- Claim C2 (amended): re-running the evaluation at the same instant
from the state persisted by the first run emits no notification and makes
no state change, provided (i) all entries due at that instant share one
occurrence key and (ii) the first run's auto-deduction does not move the
persisted stock from above the low-stock threshold to at-or-below it.
(Dropping either proviso makes the claim false — see the
counterexample.) -/
theorem C2_rerun_idempotent (ctx : Ctx) (med : Mjs.Med) (profile : Profile)
    (h1 : ∀ t1 ∈ med.schedule_times, ∀ t2 ∈ med.schedule_times,
      isDue (Mjs.minutesOf ctx profile) (toMinutes t1) = true →
      isDue (Mjs.minutesOf ctx profile) (toMinutes t2) = true → t1 = t2)
    (h2 : (Mjs.processMed ctx med (some profile) 0).med.stock ≤ med.low_threshold →
      med.stock ≤ med.low_threshold) :
    (Mjs.processMed ctx (Mjs.processMed ctx med (some profile) 0).med
      (some profile) 0).events = [] ∧
    (Mjs.processMed ctx (Mjs.processMed ctx med (some profile) 0).med
      (some profile) 0).sends = [] ∧
    (Mjs.processMed ctx (Mjs.processMed ctx med (some profile) 0).med
      (some profile) 0).update = none ∧
    (Mjs.processMed ctx (Mjs.processMed ctx med (some profile) 0).med
      (some profile) 0).med = (Mjs.processMed ctx med (some profile) 0).med := by
  by_cases hs : Mjs.medSkipped med (some profile)
  · have hm : (Mjs.processMed ctx med (some profile) 0).med = med := by
      rw [Mjs.processMed_skipped ctx med (some profile) 0 hs]
    rw [hm, Mjs.processMed_skipped ctx med (some profile) 0 hs]
    exact ⟨rfl, rfl, rfl, rfl⟩
  · have hns := Bool.eq_false_iff.mpr hs
    have hframe := Mjs.processMed_frame ctx med (some profile) 0
    have hsched1 : (Mjs.processMed ctx med (some profile) 0).med.schedule_times =
        med.schedule_times := hframe.2.2.2.2.2.2.1
    have hthr1 : (Mjs.processMed ctx med (some profile) 0).med.low_threshold =
        med.low_threshold := hframe.2.2.2.2.2.1
    have hauto1 : (Mjs.processMed ctx med (some profile) 0).med.auto_deduct =
        med.auto_deduct := hframe.2.2.2.2.2.2.2.2.1
    have hns1 : Mjs.medSkipped (Mjs.processMed ctx med (some profile) 0).med
        (some profile) = false := by
      unfold Mjs.medSkipped at hns ⊢
      rw [hsched1]
      exact hns
    have hm1e : Mjs.processMed ctx med (some profile) 0 =
        Mjs.evalMed ctx med profile 0 :=
      Mjs.processMed_not_skipped ctx med profile 0 hns
    -- (F1) every due entry's key is the persisted last-reminder key
    have hF1 : ∀ t ∈ med.schedule_times,
        isDue (Mjs.minutesOf ctx profile) (toMinutes t) = true →
        (Mjs.processMed ctx med (some profile) 0).med.last_whatsapp_alert_key =
          some (buildAlertKey (Mjs.dateOf ctx profile) t) := by
      intro t ht hdue
      have hkc : ∀ t' ∈ med.schedule_times,
          Mjs.fireW med (Mjs.dateOf ctx profile) (Mjs.minutesOf ctx profile) t' = true →
          buildAlertKey (Mjs.dateOf ctx profile) t' =
            buildAlertKey (Mjs.dateOf ctx profile) t := by
        intro t' ht' hf
        unfold Mjs.fireW at hf
        rw [Bool.and_eq_true] at hf
        rw [h1 t' ht' t ht hf.1 hdue]
      have hfold := foldl_key_const
        (fun t' => Mjs.fireW med (Mjs.dateOf ctx profile) (Mjs.minutesOf ctx profile) t')
        (fun t' => buildAlertKey (Mjs.dateOf ctx profile) t')
        (buildAlertKey (Mjs.dateOf ctx profile) t)
        med.schedule_times med.last_whatsapp_alert_key hkc
      have hacc : (Mjs.evalAcc2 ctx med profile 0).newLastWhatsAppKey =
          (if med.schedule_times.any (fun t' => Mjs.fireW med (Mjs.dateOf ctx profile)
              (Mjs.minutesOf ctx profile) t') then
            some (buildAlertKey (Mjs.dateOf ctx profile) t)
          else med.last_whatsapp_alert_key) := by
        rw [Mjs.evalAcc2_key]
        exact hfold
      rw [hm1e, Mjs.evalMed_lastW]
      by_cases hany : med.schedule_times.any
          (fun t' => Mjs.fireW med (Mjs.dateOf ctx profile) (Mjs.minutesOf ctx profile) t')
      · have hsu : (Mjs.evalAcc2 ctx med profile 0).shouldUpdate = true := by
          rw [Mjs.evalAcc2_shouldUpdate, Bool.or_eq_true]
          obtain ⟨t', ht', hf'⟩ := List.any_eq_true.mp hany
          exact Or.inl (List.any_eq_true.mpr ⟨t', ht', by simp [hf']⟩)
        rw [if_pos hsu, hacc, if_pos hany]
      · have hanyf := Bool.eq_false_iff.mpr hany
        have hfwf : Mjs.fireW med (Mjs.dateOf ctx profile) (Mjs.minutesOf ctx profile) t
            = false := by
          have := List.any_eq_false.mp hanyf t ht
          simpa using this
        have hstored : med.last_whatsapp_alert_key =
            some (buildAlertKey (Mjs.dateOf ctx profile) t) := by
          unfold Mjs.fireW at hfwf
          rw [hdue, Bool.true_and] at hfwf
          simpa using of_decide_eq_false hfwf
        rw [hacc, if_neg hany]
        split_ifs <;> exact hstored
    -- (F2) same for the auto-dose key when auto-deduct is on
    have hF2 : ∀ t ∈ med.schedule_times,
        isDue (Mjs.minutesOf ctx profile) (toMinutes t) = true →
        med.auto_deduct = true →
        (Mjs.processMed ctx med (some profile) 0).med.last_auto_dose_key =
          some (buildAlertKey (Mjs.dateOf ctx profile) t) := by
      intro t ht hdue hauto
      have hkc : ∀ t' ∈ med.schedule_times,
          Mjs.fireA med (Mjs.dateOf ctx profile) (Mjs.minutesOf ctx profile) t' = true →
          buildAlertKey (Mjs.dateOf ctx profile) t' =
            buildAlertKey (Mjs.dateOf ctx profile) t := by
        intro t' ht' hf
        unfold Mjs.fireA at hf
        rw [Bool.and_eq_true] at hf
        rw [h1 t' ht' t ht hf.1 hdue]
      have hfold := foldl_key_const
        (fun t' => Mjs.fireA med (Mjs.dateOf ctx profile) (Mjs.minutesOf ctx profile) t')
        (fun t' => buildAlertKey (Mjs.dateOf ctx profile) t')
        (buildAlertKey (Mjs.dateOf ctx profile) t)
        med.schedule_times med.last_auto_dose_key hkc
      have hacc : (Mjs.evalAcc2 ctx med profile 0).newLastAutoDoseKey =
          (if med.schedule_times.any (fun t' => Mjs.fireA med (Mjs.dateOf ctx profile)
              (Mjs.minutesOf ctx profile) t') then
            some (buildAlertKey (Mjs.dateOf ctx profile) t)
          else med.last_auto_dose_key) := by
        rw [Mjs.evalAcc2_autoKey]
        exact hfold
      rw [hm1e, Mjs.evalMed_autoKeyP]
      by_cases hany : med.schedule_times.any
          (fun t' => Mjs.fireA med (Mjs.dateOf ctx profile) (Mjs.minutesOf ctx profile) t')
      · have hsu : (Mjs.evalAcc2 ctx med profile 0).shouldUpdate = true := by
          rw [Mjs.evalAcc2_shouldUpdate, Bool.or_eq_true]
          obtain ⟨t', ht', hf'⟩ := List.any_eq_true.mp hany
          exact Or.inl (List.any_eq_true.mpr ⟨t', ht', by simp [hf']⟩)
        rw [if_pos hsu, hacc, if_pos hany]
      · have hanyf := Bool.eq_false_iff.mpr hany
        have hfaf : Mjs.fireA med (Mjs.dateOf ctx profile) (Mjs.minutesOf ctx profile) t
            = false := by
          have := List.any_eq_false.mp hanyf t ht
          simpa using this
        have hstored : med.last_auto_dose_key =
            some (buildAlertKey (Mjs.dateOf ctx profile) t) := by
          unfold Mjs.fireA at hfaf
          rw [hdue, Bool.true_and, hauto, Bool.true_and] at hfaf
          simpa using of_decide_eq_false hfaf
        rw [hacc, if_neg hany]
        split_ifs <;> exact hstored
    -- (F3) the low-stock condition cannot hold for the persisted row
    have hF3 : Mjs.lowCond (Mjs.processMed ctx med (some profile) 0).med
        (Mjs.dateOf ctx profile) = false := by
      by_cases hl : Mjs.lowCond med (Mjs.dateOf ctx profile)
      · have hset : (Mjs.processMed ctx med
            (some profile) 0).med.last_low_stock_whatsapp_date =
            some (Mjs.dateOf ctx profile) := by
          rw [Mjs.processMed_lastLow, if_pos ⟨hns, hl⟩]
        unfold Mjs.lowCond
        rw [hset]
        simp
      · have hpres : (Mjs.processMed ctx med
            (some profile) 0).med.last_low_stock_whatsapp_date =
            med.last_low_stock_whatsapp_date := by
          rw [Mjs.processMed_lastLow, if_neg (fun hc => hl hc.2)]
        by_cases hlast : med.last_low_stock_whatsapp_date =
            some (Mjs.dateOf ctx profile)
        · unfold Mjs.lowCond
          rw [hpres, hlast]
          simp
        · have hst : ¬ (med.stock ≤ med.low_threshold) := by
            intro hcon
            apply hl
            unfold Mjs.lowCond
            simp [hcon, hlast]
          have hst1 : ¬ ((Mjs.processMed ctx med (some profile) 0).med.stock ≤
              (Mjs.processMed ctx med (some profile) 0).med.low_threshold) := by
            rw [hthr1]
            intro hcon
            exact hst (h2 hcon)
          unfold Mjs.lowCond
          simp [hst1]
    -- run 2 evaluates nothing
    have hnofire1 : ∀ t ∈ (Mjs.processMed ctx med (some profile) 0).med.schedule_times,
        Mjs.fireW (Mjs.processMed ctx med (some profile) 0).med
          (Mjs.dateOf ctx profile) (Mjs.minutesOf ctx profile) t = false ∧
        Mjs.fireA (Mjs.processMed ctx med (some profile) 0).med
          (Mjs.dateOf ctx profile) (Mjs.minutesOf ctx profile) t = false := by
      rw [hsched1]
      intro t ht
      by_cases hdue : isDue (Mjs.minutesOf ctx profile) (toMinutes t)
      · constructor
        · unfold Mjs.fireW
          rw [hF1 t ht hdue]
          simp
        · unfold Mjs.fireA
          by_cases hauto : med.auto_deduct = true
          · rw [hF2 t ht hdue hauto]
            simp
          · have : (Mjs.processMed ctx med (some profile) 0).med.auto_deduct = false := by
              rw [hauto1]
              simpa using hauto
            rw [this]
            simp
      · have hd := Bool.eq_false_iff.mpr hdue
        unfold Mjs.fireW Mjs.fireA
        rw [hd]
        simp
    have hacc1 : Mjs.evalAcc2 ctx (Mjs.processMed ctx med (some profile) 0).med
        profile 0 = Mjs.initAcc (Mjs.processMed ctx med (some profile) 0).med 0 := by
      unfold Mjs.evalAcc2
      simp only [hF3, Bool.false_eq_true, if_false]
      exact Mjs.schedLoop_no_fire _ _ _ _ _ _ _ hnofire1
    have hrun2 : Mjs.processMed ctx (Mjs.processMed ctx med (some profile) 0).med
        (some profile) 0 =
        ⟨(Mjs.processMed ctx med (some profile) 0).med, none, 0, [], []⟩ := by
      rw [Mjs.processMed_not_skipped ctx _ profile 0 hns1]
      unfold Mjs.evalMed
      rw [hacc1]
      simp [Mjs.initAcc]
    rw [hrun2]
    exact ⟨rfl, rfl, rfl, rfl⟩

/-- Counterexample to C2 as stated: with two distinct schedule entries
both inside the window ("08:00" and "08:05" at 08:07), the first run
persists the second entry's key, and the second run re-emits a reminder
for "08:00" from the persisted state. -/
theorem C2_counterexample :
    (Mjs.processMed sCtx487 (Mjs.processMed sCtx487 sMedTwo (some sProf1) 0).med
      (some sProf1) 0).events =
      [⟨EventKind.doseReminder, "2024-03-01-08:00"⟩] := by decide

/-- Witness for the amended C2 with a single due entry. -/
theorem C2_rerun_idempotent_witness :
    (Mjs.processMed sCtx483 (Mjs.processMed sCtx483 sMedBase (some sProf1) 0).med
      (some sProf1) 0).events = [] ∧
    (Mjs.processMed sCtx483 (Mjs.processMed sCtx483 sMedBase (some sProf1) 0).med
      (some sProf1) 0).sends = [] ∧
    (Mjs.processMed sCtx483 (Mjs.processMed sCtx483 sMedBase (some sProf1) 0).med
      (some sProf1) 0).update = none ∧
    (Mjs.processMed sCtx483 (Mjs.processMed sCtx483 sMedBase (some sProf1) 0).med
      (some sProf1) 0).med = (Mjs.processMed sCtx483 sMedBase (some sProf1) 0).med :=
  C2_rerun_idempotent sCtx483 sMedBase sProf1 (by decide) (by decide)

end MedAlerts

namespace MedAlerts.Deno

theorem normalize_str (t : String) (l : List RawEntry) (fb : Int) :
    normalizeScheduleTimes (RawEntry.str t :: l) fb =
      ⟨t, fb⟩ :: normalizeScheduleTimes l fb := by
  simp [normalizeScheduleTimes]

theorem normalize_obj_pills (t : String) (p : Int) (l : List RawEntry) (fb : Int)
    (ht : t ≠ "") :
    normalizeScheduleTimes (RawEntry.obj (some t) (some p) :: l) fb =
      ⟨t, p⟩ :: normalizeScheduleTimes l fb := by
  simp [normalizeScheduleTimes, ht]

theorem normalize_obj_default (t : String) (l : List RawEntry) (fb : Int)
    (ht : t ≠ "") :
    normalizeScheduleTimes (RawEntry.obj (some t) none :: l) fb =
      ⟨t, fb⟩ :: normalizeScheduleTimes l fb := by
  simp [normalizeScheduleTimes, ht]

theorem normalize_obj_missing (q : Option Int) (l : List RawEntry) (fb : Int) :
    normalizeScheduleTimes (RawEntry.obj none q :: l) fb =
      normalizeScheduleTimes l fb := by
  simp [normalizeScheduleTimes]

theorem normalize_other (l : List RawEntry) (fb : Int) :
    normalizeScheduleTimes (RawEntry.other :: l) fb = normalizeScheduleTimes l fb := by
  simp [normalizeScheduleTimes]

theorem schedLoop_sched_irrel (med : Med) (l1 l2 : List RawEntry)
    (phones : List String) (d : String) (nm : Int) (iso : String) :
    ∀ (L : List SchedEntry) (acc : EvalAcc),
    schedLoop { med with schedule_times := l1 } phones d nm iso L acc =
      schedLoop { med with schedule_times := l2 } phones d nm iso L acc
  | [], _ => rfl
  | e :: L, acc => by
    rw [schedLoop, schedLoop]
    rw [show stepEntry { med with schedule_times := l1 } phones d nm iso e acc =
      stepEntry { med with schedule_times := l2 } phones d nm iso e acc from rfl]
    exact schedLoop_sched_irrel med l1 l2 phones d nm iso L _

theorem evalAcc2_malformed (ctx : Ctx) (med : Med) (q : Option Int)
    (es : List RawEntry) (profile : Profile) (s : Nat) :
    evalAcc2 ctx { med with schedule_times := RawEntry.obj none q :: es } profile s =
      evalAcc2 ctx { med with schedule_times := es } profile s := by
  unfold evalAcc2
  rw [show normalizeScheduleTimes
      (Med.schedule_times { med with schedule_times := RawEntry.obj none q :: es })
      (fallbackDose { med with schedule_times := RawEntry.obj none q :: es }) =
    normalizeScheduleTimes (Med.schedule_times { med with schedule_times := es })
      (fallbackDose { med with schedule_times := es }) by
      show normalizeScheduleTimes (RawEntry.obj none q :: es)
          (fallbackDose { med with schedule_times := RawEntry.obj none q :: es }) =
        normalizeScheduleTimes es (fallbackDose { med with schedule_times := es })
      rw [show fallbackDose { med with schedule_times := RawEntry.obj none q :: es } =
        fallbackDose { med with schedule_times := es } from rfl, normalize_obj_missing]]
  rw [schedLoop_sched_irrel med (RawEntry.obj none q :: es) es (filteredPhones profile)
    (dateOf ctx profile) (minutesOf ctx profile) ctx.nowIso _ _]
  rw [show initAcc { med with schedule_times := RawEntry.obj none q :: es } s =
    initAcc { med with schedule_times := es } s from rfl]
  rw [show lowCond { med with schedule_times := RawEntry.obj none q :: es }
      (dateOf ctx profile) =
    lowCond { med with schedule_times := es } (dateOf ctx profile) from rfl]
  rw [show lowStockStep { med with schedule_times := RawEntry.obj none q :: es }
      (filteredPhones profile) (dateOf ctx profile) =
    lowStockStep { med with schedule_times := es }
      (filteredPhones profile) (dateOf ctx profile) from rfl]

theorem processMed_malformed_obs (ctx : Ctx) (med : Med) (q : Option Int)
    (es : List RawEntry) (prof : Option Profile) (s : Nat) :
    (processMed ctx { med with schedule_times := RawEntry.obj none q :: es }
      prof s).events =
      (processMed ctx { med with schedule_times := es } prof s).events ∧
    (processMed ctx { med with schedule_times := RawEntry.obj none q :: es }
      prof s).sends =
      (processMed ctx { med with schedule_times := es } prof s).sends ∧
    (processMed ctx { med with schedule_times := RawEntry.obj none q :: es }
      prof s).sentCount =
      (processMed ctx { med with schedule_times := es } prof s).sentCount ∧
    (processMed ctx { med with schedule_times := RawEntry.obj none q :: es }
      prof s).update =
      (processMed ctx { med with schedule_times := es } prof s).update := by
  cases prof with
  | none => exact ⟨rfl, rfl, rfl, rfl⟩
  | some profile =>
    unfold processMed
    by_cases he : profile.whatsapp_enabled = some false
    · simp [he]
    · by_cases hp : (filteredPhones profile).isEmpty
      · simp [he, hp]
      · have hnormA : normalizeScheduleTimes
            (Med.schedule_times { med with schedule_times := RawEntry.obj none q :: es })
            (fallbackDose { med with schedule_times := RawEntry.obj none q :: es }) =
            normalizeScheduleTimes
              (Med.schedule_times { med with schedule_times := es })
              (fallbackDose { med with schedule_times := es }) := by
          show normalizeScheduleTimes (RawEntry.obj none q :: es)
              (fallbackDose { med with schedule_times := RawEntry.obj none q :: es }) =
            normalizeScheduleTimes es (fallbackDose { med with schedule_times := es })
          rw [show fallbackDose { med with schedule_times := RawEntry.obj none q :: es } =
        fallbackDose { med with schedule_times := es } from rfl, normalize_obj_missing]
        rw [hnormA]
        by_cases hempty : (normalizeScheduleTimes
            (Med.schedule_times { med with schedule_times := es })
            (fallbackDose { med with schedule_times := es })).isEmpty
        · simp [he, hp, hempty]
        · simp only [he, hp, hempty, Bool.false_eq_true, if_false]
          unfold evalMed
          rw [evalAcc2_malformed ctx med q es profile s]
          rw [show lowCond { med with schedule_times := RawEntry.obj none q :: es }
              (dateOf ctx profile) =
            lowCond { med with schedule_times := es } (dateOf ctx profile) from rfl]
          by_cases hsu : (evalAcc2 ctx { med with schedule_times := es }
              profile s).shouldUpdate <;>
            simp [hsu]

theorem runMeds_malformed_obs (ctx : Ctx) (timeUp : Nat → Bool) (med : Med)
    (q : Option Int) (es : List RawEntry) (prof : Option Profile)
    (rest : List (Med × Option Profile)) (i sent : Nat) :
    (runMeds ctx timeUp (({ med with schedule_times := RawEntry.obj none q :: es },
        prof) :: rest) i sent).events =
      (runMeds ctx timeUp (({ med with schedule_times := es }, prof) :: rest)
        i sent).events ∧
    (runMeds ctx timeUp (({ med with schedule_times := RawEntry.obj none q :: es },
        prof) :: rest) i sent).sends =
      (runMeds ctx timeUp (({ med with schedule_times := es }, prof) :: rest)
        i sent).sends ∧
    (runMeds ctx timeUp (({ med with schedule_times := RawEntry.obj none q :: es },
        prof) :: rest) i sent).sentCount =
      (runMeds ctx timeUp (({ med with schedule_times := es }, prof) :: rest)
        i sent).sentCount ∧
    (runMeds ctx timeUp (({ med with schedule_times := RawEntry.obj none q :: es },
        prof) :: rest) i sent).remaining.length =
      (runMeds ctx timeUp (({ med with schedule_times := es }, prof) :: rest)
        i sent).remaining.length := by
  rw [runMeds, runMeds]
  by_cases ht : timeUp i
  · simp [ht]
  · by_cases hc : MAX_SENDS_PER_RUN ≤ sent
    · simp [ht, hc]
    · simp only [ht, hc, Bool.false_eq_true, if_false]
      obtain ⟨h1, h2, h3, _⟩ := processMed_malformed_obs ctx med q es prof sent
      rw [h1, h2, h3]
      exact ⟨rfl, rfl, rfl, rfl⟩

end MedAlerts.Deno

namespace MedAlerts

/-- Claim C8: the matcher accepts both schedule encodings — bare time
strings (falling back to the default dose) and structured entries with an
optional per-time dose override — while a malformed entry (missing time)
or foreign value is skipped silently: it disappears from the normalized
list, and an evaluation run over a medication with a malformed entry
behaves exactly like the run with that entry removed, leaving all other
medications' processing unchanged. -/
theorem C8_mixed_schedule (fb p : Int) (t : String) (l : List Deno.RawEntry)
    (q : Option Int) (ctx : Ctx) (med : Deno.Med) (prof : Option Profile)
    (rest : List (Deno.Med × Option Profile)) (timeUp : Nat → Bool) (i sent : Nat)
    (es : List Deno.RawEntry) (hne : t ≠ "") :
    Deno.normalizeScheduleTimes (Deno.RawEntry.str t :: l) fb =
      ⟨t, fb⟩ :: Deno.normalizeScheduleTimes l fb ∧
    Deno.normalizeScheduleTimes (Deno.RawEntry.obj (some t) (some p) :: l) fb =
      ⟨t, p⟩ :: Deno.normalizeScheduleTimes l fb ∧
    Deno.normalizeScheduleTimes (Deno.RawEntry.obj (some t) none :: l) fb =
      ⟨t, fb⟩ :: Deno.normalizeScheduleTimes l fb ∧
    Deno.normalizeScheduleTimes (Deno.RawEntry.obj none q :: l) fb =
      Deno.normalizeScheduleTimes l fb ∧
    Deno.normalizeScheduleTimes (Deno.RawEntry.other :: l) fb =
      Deno.normalizeScheduleTimes l fb ∧
    (Deno.runMeds ctx timeUp
      (({ med with schedule_times := Deno.RawEntry.obj none q :: es }, prof) :: rest)
      i sent).events =
      (Deno.runMeds ctx timeUp (({ med with schedule_times := es }, prof) :: rest)
        i sent).events ∧
    (Deno.runMeds ctx timeUp
      (({ med with schedule_times := Deno.RawEntry.obj none q :: es }, prof) :: rest)
      i sent).sentCount =
      (Deno.runMeds ctx timeUp (({ med with schedule_times := es }, prof) :: rest)
        i sent).sentCount ∧
    (Deno.runMeds ctx timeUp
      (({ med with schedule_times := Deno.RawEntry.obj none q :: es }, prof) :: rest)
      i sent).remaining.length =
      (Deno.runMeds ctx timeUp (({ med with schedule_times := es }, prof) :: rest)
        i sent).remaining.length := by
  obtain ⟨h1, _, h3, h4⟩ := Deno.runMeds_malformed_obs ctx timeUp med q es prof rest i sent
  exact ⟨Deno.normalize_str t l fb, Deno.normalize_obj_pills t p l fb hne,
    Deno.normalize_obj_default t l fb hne, Deno.normalize_obj_missing q l fb,
    Deno.normalize_other l fb, h1, h3, h4⟩

/-- Witness for C8 on a concrete mixed schedule. -/
theorem C8_mixed_schedule_witness :
    Deno.normalizeScheduleTimes [Deno.RawEntry.obj (some "08:00") (some 3)] 2 =
      [⟨"08:00", 3⟩] ∧
    (Deno.runMeds sCtx483 (fun _ => false)
      [({ sDenoMed with schedule_times :=
          [Deno.RawEntry.obj none (some 1), Deno.RawEntry.str "08:00"] },
        some sProf1)] 0 0).events =
    (Deno.runMeds sCtx483 (fun _ => false)
      [({ sDenoMed with schedule_times := [Deno.RawEntry.str "08:00"] },
        some sProf1)] 0 0).events := by
  have h := C8_mixed_schedule 2 3 "08:00" [] (some 1) sCtx483 sDenoMed (some sProf1)
    [] (fun _ => false) 0 0 [Deno.RawEntry.str "08:00"] (by decide)
  exact ⟨h.2.1, h.2.2.2.2.2.1⟩

end MedAlerts

namespace MedAlerts

/-- Witness for C1 at scheduled minute 480 (08:00) and now 483 (08:03). -/
theorem C1_due_window_witness :
    isDue 480 480 = true ∧
    (isDue 483 480 = true ↔ 0 ≤ (483 : Int) - 480 ∧
      (483 : Int) - 480 ≤ ALERT_WINDOW_MINUTES) :=
  ⟨(C1_due_window 483 480 0).2.1, (C1_due_window 483 480 0).1⟩

/-- Witness for C7 at the base sample medication. -/
theorem C7_independent_dedup_witness :
    (Mjs.processMed sCtx483 { sMedBase with auto_deduct := true }
      (some sProf1) 0).events =
      (Mjs.processMed sCtx483 sMedBase (some sProf1) 0).events ∧
    (Mjs.processMed sCtx483 { sMedBase with last_whatsapp_alert_key := some "x" }
      (some sProf1) 0).med.stock =
      (Mjs.processMed sCtx483 sMedBase (some sProf1) 0).med.stock :=
  ⟨(C7_independent_dedup sCtx483 sMedBase sProf1 0 true (some "x")).1,
   (C7_independent_dedup sCtx483 sMedBase sProf1 0 true (some "x")).2.2.1⟩

end MedAlerts
